import Mathlib

set_option maxHeartbeats 4000000
set_option maxRecDepth 100000

/-!
Verification of the structural analyzer and test-case synthesizer of the
test-case-generator repository.  The definitions below are a shallow
embedding of `src/backend/src/services/astParser.js` and
`src/backend/src/services/testGenerator.js`: JavaScript values are an
inductive type, the Babel AST is an inductive tree (the external Babel
parser is a parameter), stateful traversal is explicit state passing, and
fallible JavaScript code returns `Except String`.
-/

namespace TCG

/-- JavaScript runtime values as produced and consumed by the generator.
Numbers are rationals (the code only holds small decimal literals such as
`1`, `25`, `100.50`); `NaN` gets its own constructor, as does `undefined`. -/
inductive Val where
  | vNull
  | vUndefined
  | vNaN
  | vBool (b : Bool)
  | vNum (q : ℚ)
  | vStr (s : String)
  | vArr (elems : List Val)
  | vObj (fields : List (String × Val))

/-- `leadsWith pat s`: the character list `pat` starts the list `s`. -/
def leadsWith : List Char → List Char → Bool
  | [], _ => true
  | _ :: _, [] => false
  | p :: ps, c :: cs => p == c && leadsWith ps cs

/-- `listContains s pat`: `pat` occurs as a contiguous run inside `s`. -/
def listContains : List Char → List Char → Bool
  | s, pat =>
    if leadsWith pat s then true
    else match s with
      | [] => false
      | _ :: t => listContains t pat

/-- JavaScript `String.prototype.includes`. -/
def jsIncludes (s pat : String) : Bool := listContains s.toList pat.toList

/-- JavaScript `String.prototype.toLowerCase`, for the ASCII identifiers
this code base handles (character-wise lowering). -/
def jsToLower (s : String) : String := String.mk (s.toList.map Char.toLower)

/-- JavaScript `String.prototype.length`: the number of UTF-16 code units. -/
def utf16Len (s : String) : Nat :=
  s.toList.foldl (fun n c => n + (if c.toNat < 65536 then 1 else 2)) 0

/-- JavaScript truthiness test (used by `!sourceCode`). -/
def jsFalsy : Val → Bool
  | .vNull => true
  | .vUndefined => true
  | .vNaN => true
  | .vBool b => !b
  | .vNum q => q == 0
  | .vStr s => s == ""
  | .vArr _ => false
  | .vObj _ => false

/-- Decimal digits of `rem / den` (used to print terminating decimals the
way JavaScript prints the numbers occurring in this code base). -/
def fracDigits : Nat → Nat → Nat → String
  | 0, _, _ => ""
  | _ + 1, 0, _ => ""
  | fuel + 1, rem, den =>
    toString (rem * 10 / den) ++ fracDigits fuel (rem * 10 % den) den

/-- JavaScript number-to-string conversion, restricted to the terminating
decimals this code base produces (`1`, `25`, `100.5`, `0`, `-1`, ...). -/
def ratToJsString (q : ℚ) : String :=
  let sign := if q < 0 then "-" else ""
  let n := q.num.natAbs
  let ip := n / q.den
  let rem := n % q.den
  if rem = 0 then sign ++ toString ip
  else sign ++ toString ip ++ "." ++ fracDigits 30 rem q.den

/-- Escaping of `"` and backslash inside JSON string literals. -/
def jsonEscape (s : String) : String :=
  String.mk (s.toList.foldr
    (fun c acc => if c = '"' || c = '\\' then '\\' :: c :: acc else c :: acc) [])

mutual

/-- `JSON.stringify` of a value that is itself emitted (inside an array,
`undefined` and `NaN` print as `null`; object fields with value
`undefined` are omitted by `jsonFields`). -/
def jsonVal : Val → String
  | .vNull => "null"
  | .vUndefined => "null"
  | .vNaN => "null"
  | .vBool b => cond b "true" "false"
  | .vNum q => ratToJsString q
  | .vStr s => "\"" ++ jsonEscape s ++ "\""
  | .vArr es => "[" ++ String.intercalate "," (jsonArr es) ++ "]"
  | .vObj fs => "\x7b" ++ String.intercalate "," (jsonFields fs) ++ "\x7d"

def jsonArr : List Val → List String
  | [] => []
  | v :: vs => jsonVal v :: jsonArr vs

def jsonFields : List (String × Val) → List String
  | [] => []
  | (_, .vUndefined) :: fs => jsonFields fs
  | (k, v) :: fs => ("\"" ++ jsonEscape k ++ "\":" ++ jsonVal v) :: jsonFields fs

end

/-- `JSON.stringify` as used by the generator (always applied to objects). -/
def jsonStringify (v : Val) : String := jsonVal v

/-- JavaScript object field update: overwrite in place when the key exists
(keeping its insertion position), otherwise append. -/
def jsObjSet : List (String × Val) → String → Val → List (String × Val)
  | [], k, v => [(k, v)]
  | (k', v') :: fs, k, v =>
    if k' = k then (k, v) :: fs else (k', v') :: jsObjSet fs k v

/-! ## Heuristic value generator (testGenerator.js lines 263-344) -/

/-- Body of `generateSampleValueByName` after the initial
`paramName.toLowerCase()`; the if-chain is transcribed in source order. -/
def sampleValueLower (name : String) : Val :=
  if jsIncludes name "id" || jsIncludes name "index" || jsIncludes name "count" then
    .vNum 1
  else if jsIncludes name "age" || jsIncludes name "year" then
    .vNum 25
  else if jsIncludes name "price" || jsIncludes name "amount" || jsIncludes name "value" then
    .vNum (201 / 2)
  else if jsIncludes name "name" || jsIncludes name "title" then
    .vStr "Test Name"
  else if jsIncludes name "email" then
    .vStr "test@example.com"
  else if jsIncludes name "url" || jsIncludes name "link" then
    .vStr "https://example.com"
  else if jsIncludes name "password" then
    .vStr "Test123!"
  else if jsIncludes name "is" || jsIncludes name "has" || jsIncludes name "can" then
    .vBool true
  else if jsIncludes name "list" || jsIncludes name "array" || jsIncludes name "items" then
    .vArr [.vStr "item1", .vStr "item2"]
  else if jsIncludes name "user" || jsIncludes name "person" then
    .vObj [("id", .vNum 1), ("name", .vStr "Test User")]
  else if jsIncludes name "config" || jsIncludes name "options" then
    .vObj [("option1", .vBool true), ("option2", .vStr "value")]
  else
    .vStr "testValue"

/-- `generateSampleValueByName` (testGenerator.js line 263). -/
def generateSampleValueByName (paramName : String) : Val :=
  sampleValueLower (jsToLower paramName)

/-- Body of `generateHighQualityValue` after lowercasing.  The `date`
branch evaluates `new Date().toISOString()`: the current wall-clock time,
modelled by the explicit `now` argument. -/
def highQualityLower (now : String) (name : String) : Val :=
  if jsIncludes name "email" then .vStr "user@domain.com"
  else if jsIncludes name "phone" then .vStr "+1234567890"
  else if jsIncludes name "date" then .vStr now
  else if jsIncludes name "url" then .vStr "https://validurl.com/path"
  else if jsIncludes name "name" then .vStr "Valid Name"
  else .vStr "validValue"

/-- `generateHighQualityValue` (testGenerator.js line 334); `now` is the
ISO string of the current time. -/
def generateHighQualityValue (now : String) (paramName : String) : Val :=
  highQualityLower now (jsToLower paramName)

/-! ## The Babel AST, as consumed by astParser.js

The external Babel parser is a parameter of the analysis; the node shapes
below carry exactly the fields the visitors in astParser.js read.
Parameter patterns are restricted to the shapes `extractFunctionInfo`
distinguishes; class-member and variable-declarator data are kept beside
the child nodes that Babel would traverse through them. -/

/-- A function parameter node (`Identifier`, `AssignmentPattern` with an
identifier on the left, `RestElement`, or anything else). -/
inductive Param where
  | pIdent (name : String)
  | pDefault (name : String)
  | pRest (name : String)
  | pComplex

/-- An import specifier (`spec.type`, `spec.local.name`,
`spec.imported?.name`). -/
structure ImportSpec where
  stype : String
  localName : String
  imported : Option String

/-- A class body member; `keyName = none` models a computed key
(`member.key.name` is `undefined`). -/
inductive ClassMember where
  | method (keyName : Option String) (kind : String) (isStatic isAsync : Bool)
  | property (keyName : Option String) (isStatic : Bool)

/-- One variable declarator: `idName = some n` when the binding is a plain
identifier, `none` for destructuring patterns; `hasInit` is `!!decl.init`. -/
structure VarDeclInfo where
  idName : Option String
  hasInit : Bool

/-- AST nodes.  `other` covers every node kind without a registered
visitor (returns, calls, literals, ...); `blockStmt` is kept separate
because `isBlockStatement` inspects it.  Loop/try nodes carry their
traversable children as one list in Babel visiting order. -/
inductive Node where
  | funcDecl (id : Option String) (params : List Param)
      (isAsync isGenerator : Bool) (line : Option Nat) (body : List Node)
  | funcExpr (id : Option String) (params : List Param)
      (isAsync isGenerator : Bool) (line : Option Nat) (body : List Node)
  | arrowFunc (params : List Param) (isAsync : Bool)
      (line : Option Nat) (body : List Node)
  | classDecl (id : Option String) (superClass : Option String)
      (members : List ClassMember) (line : Option Nat) (body : List Node)
  | varDecl (kind : String) (decls : List VarDeclInfo)
      (line : Option Nat) (inits : List Node)
  | importDecl (source : String) (specifiers : List ImportSpec)
  | exportDecl (etype : String) (line : Option Nat) (decl : Option Node)
  | ifStmt (line : Option Nat) (test : Node) (consequent : Node)
      (alternate : Option Node)
  | switchStmt (line : Option Nat) (disc : Node) (cases : List Node)
  | switchCase (body : List Node)
  | condExpr (line : Option Nat) (test : Node) (consequent : Node)
      (alternate : Node)
  | forStmt (line : Option Nat) (children : List Node)
  | whileStmt (line : Option Nat) (children : List Node)
  | doWhileStmt (line : Option Nat) (children : List Node)
  | forInStmt (line : Option Nat) (children : List Node)
  | forOfStmt (line : Option Nat) (children : List Node)
  | tryStmt (line : Option Nat) (hasCatch hasFinally : Bool)
      (children : List Node)
  | logicalExpr (op : String) (lhs rhs : Node)
  | blockStmt (body : List Node)
  | other (children : List Node)

/-! ## Inventory records (the `analysis` object of analyzeJavaScript) -/

structure ParamInfo where
  name : String
  ptype : String

structure FunctionInfo where
  name : String
  ftype : String
  params : List ParamInfo
  isAsync : Bool
  generator : Bool
  line : Option Nat
  complexity : Nat

structure MethodRec where
  name : String
  kind : String
  isStatic : Bool
  isAsync : Bool

structure PropertyRec where
  name : String
  isStatic : Bool

structure ClassInfo where
  name : String
  superClass : Option String
  methods : List MethodRec
  properties : List PropertyRec
  line : Option Nat

structure VariableRec where
  name : String
  kind : String
  hasInitializer : Bool
  line : Option Nat

structure ImportRec where
  source : String
  specifiers : List ImportSpec

structure ExportRec where
  etype : String
  line : Option Nat
  name : Option String := none
  kind : Option String := none
  names : Option (List (Option String)) := none

structure ConditionalRec where
  ctype : String
  line : Option Nat
  hasElse : Bool

structure LoopRec where
  ltype : String
  line : Option Nat

structure TryRec where
  hasCatch : Bool
  hasFinally : Bool
  line : Option Nat

structure Complexity where
  cyclomaticComplexity : Nat
  linesOfCode : Nat
  functionsCount : Nat
  classesCount : Nat
  maxNestingDepth : Nat

structure Analysis where
  functions : List FunctionInfo
  classes : List ClassInfo
  /-- the `variables` inventory (renamed: `variables` is a reserved word here) -/
  vars : List VariableRec
  imports : List ImportRec
  exports : List ExportRec
  conditionals : List ConditionalRec
  loops : List LoopRec
  trycatch : List TryRec
  complexity : Complexity

/-! ## Per-function local complexity (extractFunctionInfo, lines 211-224)

`path.traverse` visits every descendant of the function node — nested
function bodies included — and the registered handlers count `if`,
`switch case`, `for`, `while`, `do-while`, ternaries and `&&`/`||`
(note: no handler for `for-in`/`for-of`). -/

mutual

def localCountNode : Node → Nat
  | .funcDecl _ _ _ _ _ body => localCountList body
  | .funcExpr _ _ _ _ _ body => localCountList body
  | .arrowFunc _ _ _ body => localCountList body
  | .classDecl _ _ _ _ body => localCountList body
  | .varDecl _ _ _ inits => localCountList inits
  | .importDecl _ _ => 0
  | .exportDecl _ _ d => localCountOpt d
  | .ifStmt _ t c a => 1 + localCountNode t + localCountNode c + localCountOpt a
  | .switchStmt _ d cs => localCountNode d + localCountList cs
  | .switchCase body => 1 + localCountList body
  | .condExpr _ t c a => 1 + localCountNode t + localCountNode c + localCountNode a
  | .forStmt _ ch => 1 + localCountList ch
  | .whileStmt _ ch => 1 + localCountList ch
  | .doWhileStmt _ ch => 1 + localCountList ch
  | .forInStmt _ ch => localCountList ch
  | .forOfStmt _ ch => localCountList ch
  | .tryStmt _ _ _ ch => localCountList ch
  | .logicalExpr op l r =>
      (if op = "&&" || op = "||" then 1 else 0) + localCountNode l + localCountNode r
  | .blockStmt body => localCountList body
  | .other ch => localCountList ch

def localCountOpt : Option Node → Nat
  | none => 0
  | some n => localCountNode n

def localCountList : List Node → Nat
  | [] => 0
  | n :: ns => localCountNode n + localCountList ns

end

/-! ## Extraction helpers -/

/-- The `node.params.map` inside `extractFunctionInfo`. -/
def extractParam : Param → ParamInfo
  | .pIdent n => ⟨n, "identifier"⟩
  | .pDefault n => ⟨n, "default"⟩
  | .pRest n => ⟨n, "rest"⟩
  | .pComplex => ⟨"unknown", "complex"⟩

/-- `extractFunctionInfo` minus the push: build the `FunctionInfo` record
for a function node with the given fields (`localComplexity` starts at 1
and the `path.traverse` adds `localCountList body`). -/
def mkFunctionInfo (id : Option String) (params : List Param)
    (isAsync isGenerator : Bool) (line : Option Nat) (body : List Node)
    (ftype : String) : FunctionInfo :=
  { name := id.getD "<anonymous>"
    ftype := ftype
    params := params.map extractParam
    isAsync := isAsync
    generator := isGenerator
    line := line
    complexity := 1 + localCountList body }

/-- `extractClassInfo` minus the push. -/
def mkClassInfo (id : Option String) (superClass : Option String)
    (members : List ClassMember) (line : Option Nat) : ClassInfo :=
  { name := id.getD "<anonymous>"
    superClass := superClass
    methods := members.filterMap fun m => match m with
      | .method k kind st as => some ⟨k.getD "<computed>", kind, st, as⟩
      | .property _ _ => none
    properties := members.filterMap fun m => match m with
      | .property k st => some ⟨k.getD "<computed>", st⟩
      | .method _ _ _ _ => none
    line := line }

/-- `extractVariableInfo`: one record per declarator whose binding is a
plain identifier. -/
def extractVariableRecs (kind : String) (decls : List VarDeclInfo)
    (line : Option Nat) : List VariableRec :=
  decls.filterMap fun d => d.idName.map fun n =>
    { name := n, kind := kind, hasInitializer := d.hasInit, line := line }

/-- `extractExportInfo`.  When the exported declaration is an anonymous
function or class, `node.declaration.id.name` dereferences `null` and the
traversal aborts with a TypeError, hence the `Except`. -/
def extractExportRec (etype : String) (line : Option Nat)
    (decl : Option Node) : Except String ExportRec :=
  match decl with
  | some (.funcDecl id _ _ _ _ _) =>
      match id with
      | some n => .ok { etype := etype, line := line, name := some n, kind := some "function" }
      | none => .error "TypeError: Cannot read properties of null (reading name)"
  | some (.classDecl id _ _ _ _) =>
      match id with
      | some n => .ok { etype := etype, line := line, name := some n, kind := some "class" }
      | none => .error "TypeError: Cannot read properties of null (reading name)"
  | some (.varDecl _ decls _ _) =>
      .ok { etype := etype, line := line, kind := some "variable",
            names := some (decls.map (·.idName)) }
  | _ => .ok { etype := etype, line := line }

/-! ## Main traversal (analyzeJavaScript, lines 92-168) -/

/-- `isBlockStatement` (astParser.js line 331).  Never actually reached:
the generic visitors that would call it throw before the call (see
`undefinedThisMessage`). -/
def isBlockNode : Node → Bool
  | .blockStmt _ => true
  | .funcDecl _ _ _ _ _ _ => true
  | .ifStmt _ _ _ _ => true
  | .forStmt _ _ => true
  | .whileStmt _ _ => true
  | _ => false

/-- Traversal state: the mutable `analysis` object plus the
`currentDepth`/`maxDepth` counters of the `enter`/`exit` handlers. -/
structure TravSt where
  analysis : Analysis
  currentDepth : Nat
  maxDepth : Nat

/-- The message of the TypeError thrown by the generic visitors.  The
type-specific visitors of astParser.js are arrow functions (their `this`
is the `ASTParser` instance), but `enter(path)` and `exit(path)` (lines
157-167) are method shorthand on the visitor object, and `@babel/traverse`
invokes every visitor callback as `fn.call(state, path, state)` where
`state` is the traversal state — `undefined`, since `traverse(ast, ...)`
is called without one.  Class bodies are strict-mode code, so `this`
inside `enter` stays `undefined` and evaluating `this.isBlockStatement(path)`
throws this TypeError on the first node of every traversal, before any
type-specific visitor runs. -/
def undefinedThisMessage : String :=
  "Cannot read properties of undefined (reading \x27isBlockStatement\x27)"

/-- The generic `enter` handler (astParser.js line 157): it evaluates
`this.isBlockStatement(path)` with `this = undefined`, so it throws on
every node it is given and the depth-tracking body is never executed. -/
def enterDepth (_st : TravSt) (_n : Node) : Except String TravSt :=
  .error undefinedThisMessage

/-- The generic `exit` handler (astParser.js line 164): the same member
access on the undefined state, so it would throw identically — it is in
fact never even reached, because `enter` already threw. -/
def exitDepth (_st : TravSt) (_n : Node) : Except String TravSt :=
  .error undefinedThisMessage

/-- Bump `cyclomaticComplexity` by `k`. -/
def addComplexity (a : Analysis) (k : Nat) : Analysis :=
  { a with complexity :=
      { a.complexity with
        cyclomaticComplexity := a.complexity.cyclomaticComplexity + k } }

/-- The type-specific visitor for one node (the registered handlers of
astParser.js lines 93-155).  None of these handlers is ever reached —
the generic `enter` throws first on every node — but they are embedded
faithfully: in particular `extractTryCatchInfo` pushes onto
`analysis.tryCache`, a field that was never initialised (the inventory is
called `trycatch`), so a `TryStatement` handler would itself throw a
TypeError were it ever invoked. -/
def nodeHandler (a : Analysis) : Node → Except String Analysis
  | .funcDecl id ps ia ig ln body =>
      .ok { a with functions := a.functions ++ [mkFunctionInfo id ps ia ig ln body "declaration"] }
  | .funcExpr id ps ia ig ln body =>
      .ok { a with functions := a.functions ++ [mkFunctionInfo id ps ia ig ln body "expression"] }
  | .arrowFunc ps ia ln body =>
      .ok { a with functions := a.functions ++ [mkFunctionInfo none ps ia false ln body "arrow"] }
  | .classDecl id sup members ln _ =>
      .ok { a with classes := a.classes ++ [mkClassInfo id sup members ln] }
  | .varDecl kind decls ln _ =>
      .ok { a with vars := a.vars ++ extractVariableRecs kind decls ln }
  | .importDecl src specs =>
      .ok { a with imports := a.imports ++ [⟨src, specs⟩] }
  | .exportDecl etype ln decl => do
      let e ← extractExportRec etype ln decl
      .ok { a with exports := a.exports ++ [e] }
  | .ifStmt ln _ _ alt =>
      .ok (addComplexity
        { a with conditionals := a.conditionals ++ [⟨"if", ln, alt.isSome⟩] } 1)
  | .switchStmt ln _ cases =>
      .ok (addComplexity
        { a with conditionals := a.conditionals ++ [⟨"switch", ln, false⟩] } cases.length)
  | .condExpr ln _ _ _ =>
      .ok (addComplexity
        { a with conditionals := a.conditionals ++ [⟨"ternary", ln, false⟩] } 1)
  | .forStmt ln _ =>
      .ok (addComplexity { a with loops := a.loops ++ [⟨"for", ln⟩] } 1)
  | .whileStmt ln _ =>
      .ok (addComplexity { a with loops := a.loops ++ [⟨"while", ln⟩] } 1)
  | .doWhileStmt ln _ =>
      .ok (addComplexity { a with loops := a.loops ++ [⟨"do-while", ln⟩] } 1)
  | .forInStmt ln _ =>
      .ok (addComplexity { a with loops := a.loops ++ [⟨"for-in", ln⟩] } 1)
  | .forOfStmt ln _ =>
      .ok (addComplexity { a with loops := a.loops ++ [⟨"for-of", ln⟩] } 1)
  | .tryStmt _ _ _ _ =>
      .error "Cannot read properties of undefined (reading \x27push\x27)"
  | .switchCase _ => .ok a
  | .logicalExpr _ _ _ => .ok a
  | .blockStmt _ => .ok a
  | .other _ => .ok a

/-- The shape every node visit shares, in Babel visiting order: the
generic `enter` first, then the type-specific handler, then the child
visits `ch`, then the generic `exit`.  The generic `enter` throws on
every node (see `enterDepth`), so no visit ever gets past the first
step. -/
def wrapVisit (st : TravSt) (n : Node) (ch : TravSt → Except String TravSt) :
    Except String TravSt := do
  let st0 ← enterDepth st n
  let a ← nodeHandler st0.analysis n
  let st2 ← ch { st0 with analysis := a }
  exitDepth st2 n

mutual

/-- Visit one node (the `traverse(ast, ...)` dispatch): handler first,
then the children in Babel visiting order. -/
def visitNode (st : TravSt) : Node → Except String TravSt
  | n@(.funcDecl _ _ _ _ _ body) => wrapVisit st n (fun s => visitList s body)
  | n@(.funcExpr _ _ _ _ _ body) => wrapVisit st n (fun s => visitList s body)
  | n@(.arrowFunc _ _ _ body) => wrapVisit st n (fun s => visitList s body)
  | n@(.classDecl _ _ _ _ body) => wrapVisit st n (fun s => visitList s body)
  | n@(.varDecl _ _ _ inits) => wrapVisit st n (fun s => visitList s inits)
  | n@(.importDecl _ _) => wrapVisit st n (fun s => pure s)
  | n@(.exportDecl _ _ d) => wrapVisit st n (fun s => visitOpt s d)
  | n@(.ifStmt _ t c alt) => wrapVisit st n (fun s => do
      let s1 ← visitNode s t
      let s2 ← visitNode s1 c
      visitOpt s2 alt)
  | n@(.switchStmt _ d cs) => wrapVisit st n (fun s => do
      let s1 ← visitNode s d
      visitList s1 cs)
  | n@(.switchCase body) => wrapVisit st n (fun s => visitList s body)
  | n@(.condExpr _ t c alt) => wrapVisit st n (fun s => do
      let s1 ← visitNode s t
      let s2 ← visitNode s1 c
      visitNode s2 alt)
  | n@(.forStmt _ ch) => wrapVisit st n (fun s => visitList s ch)
  | n@(.whileStmt _ ch) => wrapVisit st n (fun s => visitList s ch)
  | n@(.doWhileStmt _ ch) => wrapVisit st n (fun s => visitList s ch)
  | n@(.forInStmt _ ch) => wrapVisit st n (fun s => visitList s ch)
  | n@(.forOfStmt _ ch) => wrapVisit st n (fun s => visitList s ch)
  | n@(.tryStmt _ _ _ ch) => wrapVisit st n (fun s => visitList s ch)
  | n@(.logicalExpr _ l r) => wrapVisit st n (fun s => do
      let s1 ← visitNode s l
      visitNode s1 r)
  | n@(.blockStmt body) => wrapVisit st n (fun s => visitList s body)
  | n@(.other ch) => wrapVisit st n (fun s => visitList s ch)

def visitOpt (st : TravSt) : Option Node → Except String TravSt
  | none => pure st
  | some n => visitNode st n

def visitList (st : TravSt) : List Node → Except String TravSt
  | [] => pure st
  | n :: ns => do visitList (← visitNode st n) ns

end

/-- `sourceCode.split(<newline>).length`: one more than the number of
newline separators (String.prototype.split with a literal separator). -/
def jsLineCount (s : String) : Nat := s.toList.count '\n' + 1

/-- The fresh `analysis` object of analyzeJavaScript (lines 71-87). -/
def initialAnalysis (sourceCode : String) : Analysis :=
  { functions := [], classes := [], vars := [], imports := [],
    exports := [], conditionals := [], loops := [], trycatch := []
    complexity :=
      { cyclomaticComplexity := 1
        linesOfCode := jsLineCount sourceCode
        functionsCount := 0
        classesCount := 0
        maxNestingDepth := 0 } }

/-- `traverse(ast, ...)` plus the metric finalisation of lines 170-172.
`traverse` visits the children of the `File` node it is handed — that is,
the `Program` node, a node kind with no registered type handler — before
any node of the program body, so the generic `enter` runs on it first
even when the body is empty. -/
def runTraversal (sourceCode : String) (prog : List Node) :
    Except String Analysis := do
  let st ← visitNode ⟨initialAnalysis sourceCode, 0, 0⟩ (Node.other prog)
  pure { st.analysis with complexity :=
    { st.analysis.complexity with
      maxNestingDepth := st.maxDepth
      functionsCount := st.analysis.functions.length
      classesCount := st.analysis.classes.length } }

/-! ## analyzeCode / analyzeJavaScript -/

/-- A Babel parser failure (`error.code`, `error.message`). -/
structure BabelError where
  code : String
  message : String

/-- The external collaborators of the analyzer: the Babel parser, its
version string, and the wall clock read by `new Date().toISOString()`. -/
structure ExternalEnv where
  parse : String → Except BabelError (List Node)
  parserVersion : String
  now : String

/-- `serializeAST`: strips `parent`/`hub`/`scope` back-references, which
the embedding does not represent, so this is the identity. -/
def serializeAST (ast : List Node) : List Node := ast

structure Metadata where
  language : String
  parserVersion : String
  analysisTimestamp : String
  codeLength : Nat
  linesOfCode : Nat

structure JSResult where
  ast : List Node
  analysis : Analysis
  metadata : Metadata

/-- `analyzeJavaScript` (astParser.js line 49): parse, traverse, package;
a `BABEL_PARSE_ERROR` is re-thrown as `Erro de sintaxe: <message>`, any
other error is re-thrown unchanged. -/
def analyzeJavaScript (env : ExternalEnv) (sourceCode : String) :
    Except String JSResult :=
  match env.parse sourceCode with
  | .error e =>
      if e.code = "BABEL_PARSE_ERROR" then .error ("Erro de sintaxe: " ++ e.message)
      else .error e.message
  | .ok ast =>
      match runTraversal sourceCode ast with
      | .error m => .error m
      | .ok analysis =>
          .ok { ast := serializeAST ast
                analysis := analysis
                metadata :=
                  { language := "javascript"
                    parserVersion := env.parserVersion
                    analysisTimestamp := env.now
                    codeLength := utf16Len sourceCode
                    linesOfCode := analysis.complexity.linesOfCode } }

def supportedLanguages : List String := ["javascript"]

/-- The constructor default for `maxCodeSize` (`parseInt(env) || 1048576`). -/
def defaultMaxCodeSize : Nat := 1048576

/-- `analyzeCode` (astParser.js line 17).  The guards run in source order:
truthiness/typeof, size, supported language, then the dispatch switch;
the surrounding catch wraps every failure as `Erro na análise: <msg>`. -/
def analyzeCode (env : ExternalEnv) (maxCodeSize : Nat) (sourceCode : Val)
    (language : String) : Except String JSResult :=
  let inner : Except String JSResult :=
    match sourceCode with
    | .vStr s =>
        if s = "" then .error "Código fonte inválido"
        else if utf16Len s > maxCodeSize then
          .error ("Código muito grande (máximo " ++ toString maxCodeSize ++ " caracteres)")
        else if !(supportedLanguages.contains language) then
          .error ("Linguagem não suportada: " ++ language)
        else if language = "javascript" then analyzeJavaScript env s
        else .error ("Análise não implementada para: " ++ language)
    | _ => .error "Código fonte inválido"
  match inner with
  | .error m => .error ("Erro na análise: " ++ m)
  | .ok r => .ok r

/-! ## Test case synthesizer (testGenerator.js) -/

/-- One generated test case (the object literals pushed by
`generateTestCases`; field names are the snake_case keys of the source). -/
structure TestCase where
  analysisId : String
  functionName : String
  testType : String
  description : String
  inputData : Val
  expectedOutput : Val
  testCode : String
  priority : Nat
  status : String

/-- External collaborators of the generator: the `test_templates` table
rows behind `getTestTemplates` (`.error` models an unreachable database),
the wall clock (`new Date().toISOString()` in `generateHighQualityValue`),
and the `Math.random() > 0.5` draws of `generateNullParamData`, indexed by
parameter position. -/
structure GenEnv where
  db : Except Unit (List (String × String))
  now : String
  flip : Nat → Bool

/-- `generateInputData` (line 241): one key per parameter, in order. -/
def generateInputData (params : List ParamInfo) : Val :=
  .vObj (params.enum.foldl
    (fun acc ip =>
      jsObjSet acc ip.2.name
        (match ip.2.ptype with
         | "identifier" => generateSampleValueByName ip.2.name
         | "default" => .vStr "DEFAULT_VALUE"
         | "rest" => .vArr [.vNum 1, .vNum 2, .vNum 3]
         | _ => .vStr ("param" ++ toString ip.1)))
    [])

/-- `generateInvalidParamData` (line 307): sample inputs with the target
parameter replaced by `invalidValues[targetIndex % 9]`.  Call sites always
pass an in-range index; the `getD` defaults are never reached there. -/
def invalidValues : List Val :=
  [.vNull, .vUndefined, .vStr "", .vNum 0, .vNum (-1), .vNaN,
   .vObj [], .vArr [], .vBool false]

def generateInvalidParamData (params : List ParamInfo) (targetIndex : Nat) : Val :=
  match generateInputData params with
  | .vObj fs =>
      let targetName := (((params.drop targetIndex).head?).map (·.name)).getD "undefined"
      .vObj (jsObjSet fs targetName
        (((invalidValues.drop (targetIndex % invalidValues.length)).head?).getD .vNull))
  | v => v

/-- `generateNullParamData` (line 317): each parameter independently
`null` or `undefined` depending on a fresh `Math.random()` draw. -/
def generateNullParamData (env : GenEnv) (params : List ParamInfo) : Val :=
  .vObj (params.enum.foldl
    (fun acc ip =>
      jsObjSet acc ip.2.name (if env.flip ip.1 then .vNull else .vUndefined))
    [])

/-- `generateValidParamData` (line 325). -/
def generateValidParamData (env : GenEnv) (params : List ParamInfo)
    (targetIndex : Nat) : Val :=
  match generateInputData params with
  | .vObj fs =>
      let targetName := (((params.drop targetIndex).head?).map (·.name)).getD "undefined"
      .vObj (jsObjSet fs targetName (generateHighQualityValue env.now targetName))
  | v => v

/-- `generateExpectedOutput` (line 346). -/
def generateExpectedOutput (func : FunctionInfo) (isAsync : Bool) : Val :=
  let base : List (String × Val) :=
    [("type", .vStr "unknown"),
     ("description", .vStr ("Saída esperada de " ++ func.name))]
  let name := jsToLower func.name
  let output :=
    if jsIncludes name "get" || jsIncludes name "find" then
      jsObjSet (jsObjSet base "type" (.vStr "object_or_null")) "value"
        (.vObj [("id", .vNum 1), ("data", .vStr "example")])
    else if jsIncludes name "is" || jsIncludes name "has" || jsIncludes name "can" then
      jsObjSet (jsObjSet base "type" (.vStr "boolean")) "value" (.vBool true)
    else if jsIncludes name "count" || jsIncludes name "length" then
      jsObjSet (jsObjSet base "type" (.vStr "number")) "value" (.vNum 0)
    else if jsIncludes name "list" || jsIncludes name "all" then
      jsObjSet (jsObjSet base "type" (.vStr "array")) "value" (.vArr [])
    else if jsIncludes name "create" || jsIncludes name "save" then
      jsObjSet (jsObjSet base "type" (.vStr "object")) "value"
        (.vObj [("id", .vNum 1), ("created", .vBool true)])
    else base
  if isAsync then .vObj [("type", .vStr "promise"), ("resolves", .vObj output)]
  else .vObj output

/-- `generateErrorExpectation` (line 381). -/
def generateErrorExpectation (func : FunctionInfo) : Val :=
  .vObj [("type", .vStr "error"), ("shouldThrow", .vBool true),
         ("errorType", .vStr "Error"),
         ("message", .vStr ("Erro esperado em " ++ func.name ++ " com parâmetros inválidos"))]

/-- `calculatePriority` (line 390); LOW/MEDIUM/HIGH are 1/2/3. -/
def calculatePriority (func : FunctionInfo) : Nat :=
  if func.complexity ≥ 10 then 3
  else if func.complexity ≥ 5 then 2
  else 1

/-! ## Template rendering (populateTemplate, line 478)

`populated.replace(new RegExp(backtick {{ key }} backtick, g), value)`:
for the alphanumeric keys this code base uses, the regex is the literal
text `{{key}}` and a value without `$` is inserted literally, so the JS
call is global leftmost literal replacement, continuing after each
replaced occurrence. -/

/-- Fuelled kernel of the global literal replacement: scanning consumes
at least one character per step, so fuel `s.length` always suffices and
the fuel-out branch is unreachable. -/
def replaceAllF (pat rep : List Char) : Nat → List Char → List Char
  | _, [] => []
  | 0, s => s
  | fuel + 1, c :: cs =>
      if pat ≠ [] ∧ leadsWith pat (c :: cs) then
        rep ++ replaceAllF pat rep fuel ((c :: cs).drop pat.length)
      else c :: replaceAllF pat rep fuel cs

/-- Global leftmost literal replacement over character lists: on a match,
emit the replacement and continue after the matched occurrence. -/
def replaceAll (pat rep s : List Char) : List Char := replaceAllF pat rep s.length s

/-- `String.prototype.replace` with a global literal pattern. -/
def jsReplaceGlobal (s pat rep : String) : String :=
  String.mk (replaceAll pat.toList rep.toList s.toList)

/-- `populateTemplate` (line 478): fold over the binding keys in object
insertion order, replacing every occurrence of each `\x7b\x7bkey\x7d\x7d`. -/
def populateTemplate (template : String) (data : List (String × String)) : String :=
  data.foldl
    (fun populated kv =>
      jsReplaceGlobal populated ("\x7b\x7b" ++ kv.1 ++ "\x7d\x7d") kv.2)
    template

/-- `getDefaultTemplates` (line 458). -/
def getDefaultTemplates : List (String × String) :=
  [("unit",
    "describe(\"\x7b\x7bfunctionName\x7d\x7d\", () => \x7b\n  test(\"\x7b\x7btestDescription\x7d\x7d\", () => \x7b\n    const input = \x7b\x7binputData\x7d\x7d;\n    const expected = \x7b\x7bexpectedOutput\x7d\x7d;\n    \n    const result = \x7b\x7bfunctionName\x7d\x7d(\x7b\x7binputParams\x7d\x7d);\n    \n    expect(result).\x7b\x7bassertion\x7d\x7d(expected);\n  \x7d);\n\x7d);"),
   ("edge_case",
    "describe(\"\x7b\x7bfunctionName\x7d\x7d - Edge Cases\", () => \x7b\n  test(\"should handle \x7b\x7bedgeCase\x7d\x7d\", () => \x7b\n    expect(() => \x7b\x7bfunctionName\x7d\x7d(\x7b\x7binputData\x7d\x7d)).\x7b\x7bexpectation\x7d\x7d;\n  \x7d);\n\x7d);")]

/-- `getTestTemplates` (line 438): build the `test_type → template_code`
map from the query rows; when the query fails, fall back to the built-in
defaults. -/
def getTestTemplates (env : GenEnv) : List (String × String) :=
  match env.db with
  | .ok rows => rows.foldl (fun acc r =>
      (acc.filter (fun kv => kv.1 ≠ r.1)) ++ [r]) []
  | .error _ => getDefaultTemplates

/-- The placeholder bindings of the `basic` branch of `generateTestCode`
(`Object.keys` order = insertion order). -/
def basicTestData (func : FunctionInfo) : List (String × String) :=
  [("functionName", func.name),
   ("testDescription", "deve executar " ++ func.name ++ " corretamente"),
   ("inputData", jsonStringify (generateInputData func.params)),
   ("inputParams", String.intercalate ", " (func.params.map (·.name))),
   ("assertion", "toBeDefined"),
   ("expectedOutput", "result")]

/-- The inline template literal of the `async` branch. -/
def asyncTestCode (func : FunctionInfo) : String :=
  "describe(\"" ++ func.name ++ "\", () => \x7b\n  test(\"deve executar função async corretamente\", async () => \x7b\n    const input = "
    ++ jsonStringify (generateInputData func.params)
    ++ ";\n    \n    const result = await " ++ func.name ++ "("
    ++ String.intercalate ", " (func.params.map (fun p => "input." ++ p.name))
    ++ ");\n    \n    expect(result).toBeDefined();\n  \x7d);\n\x7d);"

/-- The inline template literal of the `invalid_param` branch. -/
def invalidTestCode (func : FunctionInfo) (i : Nat) (param : ParamInfo) : String :=
  "describe(\"" ++ func.name ++ "\", () => \x7b\n  test(\"deve lidar com parâmetro " ++ param.name ++ " inválido\", () => \x7b\n    expect(() => \x7b\n      " ++ func.name ++ "("
    ++ String.intercalate ", "
        (func.params.enum.map (fun jp =>
          if jp.1 = i then "null" else "\x27validValue\x27"))
    ++ ");\n    \x7d).toThrow();\n  \x7d);\n\x7d);"

/-- `generateTestCode` (line 396).  Only the `basic` branch consults the
template map; `templates.unit` being absent makes
`populateTemplate(undefined, ...)` dereference `undefined`. -/
def generateTestCode (env : GenEnv) (func : FunctionInfo) (testType : String)
    (paramIndex : Option Nat) : Except String String :=
  let templates := getTestTemplates env
  if testType = "basic" then
    match templates.lookup "unit" with
    | some t => .ok (populateTemplate t (basicTestData func))
    | none => .error "TypeError: Cannot read properties of undefined (reading replace)"
  else if testType = "async" then
    .ok (asyncTestCode func)
  else if testType = "invalid_param" then
    match paramIndex with
    | some i =>
        match (func.params.drop i).head? with
        | some param => .ok (invalidTestCode func i param)
        | none => .error "TypeError: Cannot read properties of undefined (reading name)"
    | none => .error "TypeError: Cannot read properties of undefined (reading name)"
  else
    .ok ("// Código de teste para " ++ func.name ++ " - " ++ testType)

/-- JavaScript template-literal rendering of a possibly null line number. -/
def lineStr : Option Nat → String
  | some n => toString n
  | none => "null"

/-- The loop body of `generateFunctionTests` (lines 70-98): the
valid-parameter and invalid-parameter tests for the parameter at position
`ip.1`. -/
def paramPairTests (env : GenEnv) (func : FunctionInfo) (analysisId : String)
    (ip : Nat × ParamInfo) : Except String (List TestCase) := do
  let validCode ← generateTestCode env func "valid_param" (some ip.1)
  let invalidCode ← generateTestCode env func "invalid_param" (some ip.1)
  pure
    [{ analysisId := analysisId, functionName := func.name, testType := "unit"
       description := "Teste com parâmetro " ++ ip.2.name ++ " válido"
       inputData := generateValidParamData env func.params ip.1
       expectedOutput := generateExpectedOutput func false
       testCode := validCode
       priority := 2, status := "generated" },
     { analysisId := analysisId, functionName := func.name, testType := "edge_case"
       description := "Teste com parâmetro " ++ ip.2.name ++ " inválido"
       inputData := generateInvalidParamData func.params ip.1
       expectedOutput := generateErrorExpectation func
       testCode := invalidCode
       priority := 3, status := "generated" }]

/-- `generateFunctionTests` (line 54). -/
def generateFunctionTests (env : GenEnv) (func : FunctionInfo)
    (analysisId : String) : Except String (List TestCase) := do
  let basicCode ← generateTestCode env func "basic" none
  let basicTest : TestCase :=
    { analysisId := analysisId, functionName := func.name, testType := "unit"
      description := "Teste básico para a função " ++ func.name
      inputData := generateInputData func.params
      expectedOutput := generateExpectedOutput func false
      testCode := basicCode
      priority := calculatePriority func, status := "generated" }
  let paramTests ← func.params.enum.mapM (paramPairTests env func analysisId)
  let nullTests ←
    if func.params.length > 0 then do
      let nullCode ← generateTestCode env func "null_params" none
      pure [{ analysisId := analysisId, functionName := func.name
              testType := "negative"
              description := "Teste com parâmetros null/undefined para " ++ func.name
              inputData := generateNullParamData env func.params
              expectedOutput := generateErrorExpectation func
              testCode := nullCode
              priority := 3, status := "generated" }]
    else pure ([] : List TestCase)
  let asyncTests ←
    if func.isAsync then do
      let asyncCode ← generateTestCode env func "async" none
      pure [{ analysisId := analysisId, functionName := func.name
              testType := "unit"
              description := "Teste assíncrono para " ++ func.name
              inputData := generateInputData func.params
              expectedOutput := generateExpectedOutput func true
              testCode := asyncCode
              priority := 2, status := "generated" }]
    else pure ([] : List TestCase)
  pure ([basicTest] ++ paramTests.flatten ++ nullTests ++ asyncTests)

/-- `generateClassTests` (line 133): one instantiation test plus one test
per non-constructor method. -/
def generateClassTests (cls : ClassInfo) (analysisId : String) : List TestCase :=
  { analysisId := analysisId, functionName := cls.name, testType := "unit"
    description := "Teste de instanciação da classe " ++ cls.name
    inputData := .vObj [("constructorArgs", .vArr [])]
    expectedOutput := .vObj [("type", .vStr "object"), ("instanceof", .vStr cls.name)]
    testCode := "// Teste de classe " ++ cls.name ++ " - instantiation"
    priority := 3, status := "generated" } ::
  (cls.methods.filter (fun m => m.kind ≠ "constructor")).map (fun m =>
    { analysisId := analysisId, functionName := cls.name ++ "." ++ m.name
      testType := "unit"
      description := "Teste do método " ++ m.name ++ " da classe " ++ cls.name
      inputData := .vObj [("methodInput", .vStr "testData")]
      expectedOutput := .vObj [("methodOutput", .vStr "expected")]
      testCode := "// Teste de método " ++ cls.name ++ "." ++ m.name
      priority := if m.kind = "constructor" then 3 else 2
      status := "generated" })

/-- `generateConditionalTests` (line 169): a true-path and a false-path
test per recorded conditional, owner `conditional_<i>`. -/
def generateConditionalTests (conds : List ConditionalRec)
    (analysisId : String) : List TestCase :=
  conds.enum.flatMap (fun ic =>
    [{ analysisId := analysisId, functionName := "conditional_" ++ toString ic.1
       testType := "unit"
       description := "Teste do caminho verdadeiro da condicional na linha " ++ lineStr ic.2.line
       inputData := .vObj [("condition", .vBool true), ("testCase", .vStr "true_path")]
       expectedOutput := .vObj [("path", .vStr "true")]
       testCode := "// Teste condicional " ++ ic.2.ctype ++ " - caminho true"
       priority := 2, status := "generated" },
     { analysisId := analysisId, functionName := "conditional_" ++ toString ic.1
       testType := "unit"
       description := "Teste do caminho falso da condicional na linha " ++ lineStr ic.2.line
       inputData := .vObj [("condition", .vBool false), ("testCase", .vStr "false_path")]
       expectedOutput := .vObj [("path", .vStr "false")]
       testCode := "// Teste condicional " ++ ic.2.ctype ++ " - caminho false"
       priority := 2, status := "generated" }])

/-- `generateLoopTests` (line 205): a 5-iteration and a 0-iteration test
per recorded loop, owner `loop_<i>`. -/
def generateLoopTests (loops : List LoopRec) (analysisId : String) : List TestCase :=
  loops.enum.flatMap (fun il =>
    [{ analysisId := analysisId, functionName := "loop_" ++ toString il.1
       testType := "unit"
       description := "Teste de iteração normal do " ++ il.2.ltype ++ " na linha " ++ lineStr il.2.line
       inputData := .vObj [("iterations", .vNum 5), ("testCase", .vStr "normal")]
       expectedOutput := .vObj [("completed", .vBool true), ("iterations", .vNum 5)]
       testCode := "// Teste de loop " ++ il.2.ltype ++ " - normal"
       priority := 2, status := "generated" },
     { analysisId := analysisId, functionName := "loop_" ++ toString il.1
       testType := "edge_case"
       description := "Teste com zero iterações do " ++ il.2.ltype ++ " na linha " ++ lineStr il.2.line
       inputData := .vObj [("iterations", .vNum 0), ("testCase", .vStr "zero")]
       expectedOutput := .vObj [("completed", .vBool true), ("iterations", .vNum 0)]
       testCode := "// Teste de loop " ++ il.2.ltype ++ " - zero"
       priority := 3, status := "generated" }])

/-- `generateTestCases` (line 25): functions, then classes, then
conditionals, then loops, each in inventory order; the surrounding catch
wraps any failure as `Falha na geração de testes: <msg>`. -/
def generateTestCases (env : GenEnv) (analysis : Analysis)
    (analysisId : String) : Except String (List TestCase) :=
  let inner : Except String (List TestCase) := do
    let funcLists ← analysis.functions.mapM
      (fun f => generateFunctionTests env f analysisId)
    pure (funcLists.flatten
      ++ (analysis.classes.map (fun c => generateClassTests c analysisId)).flatten
      ++ generateConditionalTests analysis.conditionals analysisId
      ++ generateLoopTests analysis.loops analysisId)
  match inner with
  | .error m => .error ("Falha na geração de testes: " ++ m)
  | .ok l => .ok l

/-! ## Specification-side definitions and claim theorems -/

/-- Spec §4.2: the `sampleValue` resolution rules, written the way the
specification words them — an ordered rule list with first-match-wins
semantics (`generateSampleValueByName` above follows the source). -/
def sampleRules : List ((String → Bool) × Val) :=
  [(fun n => jsIncludes n "id" || jsIncludes n "index" || jsIncludes n "count", .vNum 1),
   (fun n => jsIncludes n "age" || jsIncludes n "year", .vNum 25),
   (fun n => jsIncludes n "price" || jsIncludes n "amount" || jsIncludes n "value", .vNum (201 / 2)),
   (fun n => jsIncludes n "name" || jsIncludes n "title", .vStr "Test Name"),
   (fun n => jsIncludes n "email", .vStr "test@example.com"),
   (fun n => jsIncludes n "url" || jsIncludes n "link", .vStr "https://example.com"),
   (fun n => jsIncludes n "password", .vStr "Test123!"),
   (fun n => jsIncludes n "is" || jsIncludes n "has" || jsIncludes n "can", .vBool true),
   (fun n => jsIncludes n "list" || jsIncludes n "array" || jsIncludes n "items",
     .vArr [.vStr "item1", .vStr "item2"]),
   (fun n => jsIncludes n "user" || jsIncludes n "person",
     .vObj [("id", .vNum 1), ("name", .vStr "Test User")]),
   (fun n => jsIncludes n "config" || jsIncludes n "options",
     .vObj [("option1", .vBool true), ("option2", .vStr "value")])]

/-- First-match-wins resolution over a rule list. -/
def firstMatch : List ((String → Bool) × Val) → String → Val → Val
  | [], _, dflt => dflt
  | r :: rs, n, dflt => if r.1 n then r.2 else firstMatch rs n dflt

/-- `sampleValue` as the specification describes it: lowercase, then the
first matching rule, otherwise the literal `"testValue"`. -/
def sampleValueSpec (identifier : String) : Val :=
  firstMatch sampleRules (jsToLower identifier) (.vStr "testValue")

/-- The parse of `try { } catch (e) { }`: one TryStatement with a catch
handler and no finalizer. -/
def tryCrashProg : List Node :=
  [.tryStmt (some 1) true false [.blockStmt [], .other [.blockStmt []]]]

def tryCrashEnv : ExternalEnv :=
  ⟨fun _ => .ok tryCrashProg, "7.28.0", "2025-01-01T00:00:00.000Z"⟩

def c9env : ExternalEnv := ⟨fun _ => .error ⟨"BABEL_PARSE_ERROR", "x"⟩, "7.28.0", "t"⟩

def c6env : ExternalEnv :=
  ⟨fun _ => .error ⟨"BABEL_PARSE_ERROR", "Unexpected token (1:4)"⟩, "7.28.0", "t"⟩

/-- The spec's descriptor-count formula (§4.3/§8):
`functions × (1 + 2·params + [has params] + [async]) +
 classes × (1 + non-ctor methods) + 2·conditionals + 2·loops`. -/
def specDescriptorCount (a : Analysis) : Nat :=
  (a.functions.map (fun f => 1 + 2 * f.params.length
      + (if f.params.length > 0 then 1 else 0)
      + (if f.isAsync then 1 else 0))).sum
  + (a.classes.map (fun c =>
      1 + (c.methods.filter (fun m => m.kind ≠ "constructor")).length)).sum
  + 2 * a.conditionals.length + 2 * a.loops.length

/-- The parse of `function add(a, b) { return a + b; }`. -/
def addProg : List Node :=
  [.funcDecl (some "add") [.pIdent "a", .pIdent "b"] false false (some 1)
    [.blockStmt [.other []]]]

def addEnv : ExternalEnv := ⟨fun _ => .ok addProg, "7.28.0", "t"⟩

/-- A generator environment whose template query fails, so the built-in
default templates are used. -/
def dfltGenEnv : GenEnv := ⟨.error (), "2025-01-01T00:00:00.000Z", fun _ => true⟩

/-- A one-function analysis used to instantiate C1 concretely. -/
def addAnalysis : Analysis :=
  { functions := [⟨"add", "declaration", [⟨"a", "identifier"⟩, ⟨"b", "identifier"⟩],
      false, false, some 1, 1⟩]
    classes := [], vars := [], imports := [], exports := []
    conditionals := [], loops := [], trycatch := []
    complexity := ⟨1, 1, 1, 0, 0⟩ }

/-- The `FunctionInfo` extracted for an arrow function with a single
identifier parameter `x` and an empty body. -/
def anonArrowInfo : FunctionInfo :=
  mkFunctionInfo none [.pIdent "x"] false false none [] "arrow"

/-! ## C8: template rendering -/

def lbrace : Char := Char.ofNat 123
def rbrace : Char := Char.ofNat 125

/-- A template decomposed into literal runs and `\x7b\x7bkey\x7d\x7d`
placeholders. -/
inductive Seg where
  | lit (s : String)
  | ph (key : String)

/-- The character list of one placeholder. -/
def patOf (k : String) : List Char :=
  lbrace :: lbrace :: (k.toList ++ [rbrace, rbrace])

/-- The text of a decomposed template. -/
def assemble : List Seg → List Char
  | [] => []
  | .lit s :: rest => s.toList ++ assemble rest
  | .ph k :: rest => patOf k ++ assemble rest

/-- A placeholder key as this code base uses them: nonempty and
alphanumeric (so the regex built from it is the literal placeholder). -/
def goodKey (k : String) : Bool :=
  !k.toList.isEmpty && k.toList.all Char.isAlphanum

/-- A binding value that is inserted literally by the JavaScript replace:
no `$` escapes and no brace (so it cannot form new placeholders). -/
def goodVal (v : String) : Bool :=
  v.toList.all (fun c => c ≠ lbrace && c ≠ '$')

def segOk : Seg → Bool
  | .lit s => s.toList.all (fun c => c ≠ lbrace)
  | .ph k => goodKey k

/-- Substitute one binding in a decomposed template. -/
def substOne (k v : String) : Seg → Seg
  | .lit s => .lit s
  | .ph k' => if k' = k then .lit v else .ph k'

/-- Substitute a whole binding list, in binding order (the semantics the
claim ascribes to `populateTemplate`). -/
def substAll (segs : List Seg) (data : List (String × String)) : List Seg :=
  data.foldl (fun acc kv => acc.map (substOne kv.1 kv.2)) segs

def c8segs : List Seg := [.lit "const r = ", .ph "functionName", .lit "(1);"]

def c8data : List (String × String) := [("functionName", "add")]

lemma replaceAllF_fuel (pat rep : List Char) :
    ∀ f₁ f₂ : Nat, ∀ s : List Char, s.length ≤ f₁ → s.length ≤ f₂ →
      replaceAllF pat rep f₁ s = replaceAllF pat rep f₂ s := by
  intro f₁
  induction f₁ with
  | zero =>
      intro f₂ s h₁ _
      have hs : s = [] := List.eq_nil_of_length_eq_zero (Nat.le_zero.mp h₁)
      subst hs
      cases f₂ <;> rfl
  | succ g ih =>
      intro f₂ s h₁ h₂
      cases s with
      | nil => cases f₂ <;> rfl
      | cons c cs =>
          cases f₂ with
          | zero => simp at h₂
          | succ f =>
              simp only [replaceAllF]
              split
              · rename_i hcond
                have hp : 0 < pat.length := List.length_pos.mpr hcond.1
                simp only [List.length_cons] at h₁ h₂
                congr 1
                apply ih
                · simp only [List.length_drop, List.length_cons]; omega
                · simp only [List.length_drop, List.length_cons]; omega
              · simp only [List.length_cons] at h₁ h₂
                congr 1
                apply ih <;> omega

lemma replaceAll_nil (pat rep : List Char) : replaceAll pat rep [] = [] := rfl

lemma replaceAll_cons (pat rep : List Char) (c : Char) (cs : List Char) :
    replaceAll pat rep (c :: cs) =
      if pat ≠ [] ∧ leadsWith pat (c :: cs) then
        rep ++ replaceAll pat rep ((c :: cs).drop pat.length)
      else c :: replaceAll pat rep cs := by
  show replaceAllF pat rep (cs.length + 1) (c :: cs) = _
  simp only [replaceAllF]
  split
  · rename_i hcond
    have hp : 0 < pat.length := List.length_pos.mpr hcond.1
    congr 1
    apply replaceAllF_fuel
    · simp only [List.length_drop, List.length_cons]; omega
    · exact Nat.le_refl _
  · rfl

/-- C5: for every identifier, `generateSampleValueByName` lowercases it
and returns the value of the first matching rule in exactly the spec's
order of substring checks (id/index/count → 1; age/year → 25;
price/amount/value → 100.50; name/title; email; url/link; password;
is/has/can; list/array/items; user/person; config/options; otherwise the
literal string "testValue"). -/
theorem C5_sampleValue_resolution_order (name : String) :
    generateSampleValueByName name = sampleValueSpec name := rfl

/-- C4 counterexample: `generateHighQualityValue` is not a pure, stateless
function of the lowercased identifier — for an identifier containing
`date` it returns `new Date().toISOString()`, so two invocations at
different wall-clock times return different values. -/
theorem C4_counterexample :
    generateHighQualityValue "2024-01-01T00:00:00.000Z" "date" ≠
      generateHighQualityValue "2024-05-02T12:00:00.000Z" "date" := by
  intro h
  exact absurd (Val.vStr.inj h) (by decide)

/-- C4 amended: `sampleValue` is a deterministic function of the
lowercased identifier alone; `qualityValue` is a deterministic function of
the lowercased identifier and the current clock, and it is
clock-independent exactly for identifiers whose lowercase form does not
contain `date`. -/
theorem C4_amended_value_generator_determinism :
    (∀ n₁ n₂ : String, jsToLower n₁ = jsToLower n₂ →
        generateSampleValueByName n₁ = generateSampleValueByName n₂)
    ∧ (∀ t₁ t₂ n : String, jsIncludes (jsToLower n) "date" = false →
        generateHighQualityValue t₁ n = generateHighQualityValue t₂ n)
    ∧ (∀ t n₁ n₂ : String, jsToLower n₁ = jsToLower n₂ →
        generateHighQualityValue t n₁ = generateHighQualityValue t n₂) := by
  refine ⟨fun n₁ n₂ h => ?_, fun t₁ t₂ n h => ?_, fun t n₁ n₂ h => ?_⟩
  · unfold generateSampleValueByName
    rw [h]
  · unfold generateHighQualityValue highQualityLower
    split_ifs with h1 h2 h3 <;> first | rfl | exact absurd h3 (by simp [h])
  · unfold generateHighQualityValue
    rw [h]

theorem C4_amended_witness :
    generateSampleValueByName "UserID" = generateSampleValueByName "userid"
    ∧ generateHighQualityValue "t1" "email" = generateHighQualityValue "t2" "email"
    ∧ generateHighQualityValue "t" "Price" = generateHighQualityValue "t" "price" :=
  ⟨C4_amended_value_generator_determinism.1 "UserID" "userid" (by decide),
   C4_amended_value_generator_determinism.2.1 "t1" "t2" "email" (by decide),
   C4_amended_value_generator_determinism.2.2 "t" "Price" "price" (by decide)⟩

/-- C2: the claim says each try statement increments the complexity and
appends a catch/finally record to the exception-handling inventory.  No
try statement is ever recorded: the generic `enter` visitor — method
shorthand on the visitor object, invoked by `@babel/traverse` with the
undefined traversal state as `this` — throws a TypeError (message
`Cannot read properties of undefined (reading \x27isBlockStatement\x27)`)
at the Program node of every parseable source, before any type-specific
visitor runs, so analysing a source containing a try statement fails with
that TypeError wrapped by `analyzeCode` as `Erro na análise:` instead of
producing an inventory.  (The `TryStatement` handler it never reaches
would itself throw: it pushes onto `analysis.tryCache`, a field the
`trycatch: []` initialiser never creates.) -/
theorem C2_try_statement_crashes :
    analyzeCode tryCrashEnv defaultMaxCodeSize
      (.vStr "try \x7b \x7d catch (e) \x7b \x7d") "javascript" =
    .error ("Erro na análise: " ++ undefinedThisMessage) := rfl

lemma utf16Len_empty : utf16Len "" = 0 := rfl

lemma ne_empty_of_utf16Len_pos {s : String} (h : 0 < utf16Len s) : s ≠ "" := by
  intro he
  subst he
  simp [utf16Len_empty] at h

/-- C9: the size gate accepts a source whose JavaScript string length is
exactly the configured limit (the rejection test is strict `>`), and the
comparison is against the string length in UTF-16 code units — characters
as JavaScript counts them — not bytes. -/
theorem C9_size_boundary (env : ExternalEnv) (maxCodeSize : Nat) (s : String)
    (hpos : 0 < maxCodeSize) (hlen : utf16Len s = maxCodeSize) :
    (analyzeCode env maxCodeSize (.vStr s) "javascript" =
       match analyzeJavaScript env s with
       | .error m => .error ("Erro na análise: " ++ m)
       | .ok r => .ok r)
    ∧ ∀ s' : String, maxCodeSize < utf16Len s' →
        analyzeCode env maxCodeSize (.vStr s') "javascript" =
          .error ("Erro na análise: " ++
            ("Código muito grande (máximo " ++ toString maxCodeSize ++ " caracteres)")) := by
  constructor
  · have hne : ¬ s = "" := ne_empty_of_utf16Len_pos (hlen ▸ hpos)
    dsimp only [analyzeCode]
    rw [if_neg hne, if_neg (by omega), if_neg (by decide), if_pos rfl]
  · intro s' hgt
    have hne : ¬ s' = "" := ne_empty_of_utf16Len_pos (Nat.lt_of_le_of_lt (Nat.zero_le _) hgt)
    dsimp only [analyzeCode]
    rw [if_neg hne, if_pos hgt]

/-- Witness for C9 at limit 2 with the two-character, four-UTF-8-byte
source `éé`: accepted (the byte length 4 exceeds the limit, the character
length 2 does not). -/
theorem C9_witness :
    ((analyzeCode c9env 2 (.vStr "éé") "javascript" =
       match analyzeJavaScript c9env "éé" with
       | .error m => .error ("Erro na análise: " ++ m)
       | .ok r => .ok r)
    ∧ ∀ s' : String, 2 < utf16Len s' →
        analyzeCode c9env 2 (.vStr s') "javascript" =
          .error ("Erro na análise: " ++
            ("Código muito grande (máximo " ++ toString 2 ++ " caracteres)")))
    ∧ utf16Len "éé" = 2 ∧ "éé".utf8ByteSize = 4 :=
  ⟨C9_size_boundary c9env 2 "éé" (by decide) (by decide), by decide, by decide⟩

/-- C6: `analyzeCode` fails when the source is empty or not a string,
when it is longer than the size limit (before any parsing: the conclusion
holds for every parser), and when the parser fails (the failure surfaces
as a syntax error carrying the parser's message).  The `Except` result
carries no `JSResult` on the error side, so no partial analysis is ever
returned on failure. -/
theorem C6_analyze_failures :
    (∀ (env : ExternalEnv) (maxCodeSize : Nat) (language : String) (v : Val),
        (match v with | .vStr s => s = "" | _ => True) →
        ∃ m, analyzeCode env maxCodeSize v language = .error m)
    ∧ (∀ (env : ExternalEnv) (maxCodeSize : Nat) (language : String) (s : String),
        maxCodeSize < utf16Len s →
        ∃ m, analyzeCode env maxCodeSize (.vStr s) language = .error m)
    ∧ (∀ (env : ExternalEnv) (maxCodeSize : Nat) (s msg : String),
        env.parse s = .error ⟨"BABEL_PARSE_ERROR", msg⟩ →
        s ≠ "" → utf16Len s ≤ maxCodeSize →
        analyzeCode env maxCodeSize (.vStr s) "javascript" =
          .error ("Erro na análise: " ++ ("Erro de sintaxe: " ++ msg))) := by
  refine ⟨fun env mx lang v hv => ?_, fun env mx lang s hgt => ?_,
    fun env mx s msg hparse hne hle => ?_⟩
  · cases v <;> try exact ⟨_, rfl⟩
    next s =>
      have he : s = "" := hv
      subst he
      exact ⟨_, rfl⟩
  · have hne : ¬ s = "" := ne_empty_of_utf16Len_pos (Nat.lt_of_le_of_lt (Nat.zero_le _) hgt)
    dsimp only [analyzeCode]
    rw [if_neg hne, if_pos hgt]
    exact ⟨_, rfl⟩
  · dsimp only [analyzeCode, analyzeJavaScript]
    rw [if_neg hne, if_neg (by omega), if_neg (by decide), if_pos rfl, hparse]
    rfl

lemma bind_ok {α β : Type} {x : Except String α} {f : α → Except String β} {b : β}
    (h : x >>= f = .ok b) : ∃ a, x = .ok a ∧ f a = .ok b := by
  cases x with
  | error e => simp [Bind.bind, Except.bind] at h
  | ok a => exact ⟨a, rfl, by simpa [Bind.bind, Except.bind] using h⟩

theorem C6_witness :
    (∃ m, analyzeCode c6env 10 (.vStr "") "javascript" = .error m)
    ∧ (∃ m, analyzeCode c6env 10 (.vNum 5) "javascript" = .error m)
    ∧ (∃ m, analyzeCode c6env 1 (.vStr "if(") "javascript" = .error m)
    ∧ analyzeCode c6env 10 (.vStr "if(") "javascript" =
        .error ("Erro na análise: " ++ ("Erro de sintaxe: " ++ "Unexpected token (1:4)")) :=
  ⟨C6_analyze_failures.1 c6env 10 "javascript" (.vStr "") rfl,
   C6_analyze_failures.1 c6env 10 "javascript" (.vNum 5) trivial,
   C6_analyze_failures.2.1 c6env 1 "javascript" "if(" (by decide),
   C6_analyze_failures.2.2 c6env 10 "if(" "Unexpected token (1:4)" rfl
     (by decide) (by decide)⟩


/-! ## The traversal crash: no analysis ever succeeds (C3, C7) -/

/-- Visiting any node fails immediately: the first step of every visit is
the generic `enter`, which throws. -/
lemma visitNode_err (st : TravSt) (n : Node) :
    visitNode st n = .error undefinedThisMessage := by
  cases n <;> rfl

lemma runTraversal_err (src : String) (prog : List Node) :
    runTraversal src prog = .error undefinedThisMessage := by
  unfold runTraversal
  rw [visitNode_err]
  rfl

lemma analyzeJavaScript_parse_error (env : ExternalEnv) (s : String) (e : BabelError)
    (hp : env.parse s = .error e) :
    analyzeJavaScript env s =
      if e.code = "BABEL_PARSE_ERROR" then .error ("Erro de sintaxe: " ++ e.message)
      else .error e.message := by
  dsimp only [analyzeJavaScript]
  rw [hp]

lemma analyzeJavaScript_parse_ok (env : ExternalEnv) (s : String) (ast : List Node)
    (hp : env.parse s = .ok ast) :
    analyzeJavaScript env s = .error undefinedThisMessage := by
  dsimp only [analyzeJavaScript]
  rw [hp]
  rfl

/-- `analyzeJavaScript` never returns a result: a parse failure is
re-thrown as an error, and a successful parse runs the traversal, which
throws at the Program node. -/
lemma analyzeJavaScript_err (env : ExternalEnv) (s : String) :
    ∃ m, analyzeJavaScript env s = .error m := by
  cases hp : env.parse s with
  | error e =>
      rw [analyzeJavaScript_parse_error env s e hp]
      by_cases hc : e.code = "BABEL_PARSE_ERROR"
      · rw [if_pos hc]; exact ⟨_, rfl⟩
      · rw [if_neg hc]; exact ⟨_, rfl⟩
  | ok ast => exact ⟨_, analyzeJavaScript_parse_ok env s ast hp⟩

/-- No call of `analyzeCode` ever returns a result: every guard failure
and every parse failure is an error, and a successful parse crashes in
the traversal. -/
lemma analyzeCode_never_ok (env : ExternalEnv) (maxCodeSize : Nat)
    (sourceCode : Val) (language : String) :
    (analyzeCode env maxCodeSize sourceCode language).toOption = none := by
  cases sourceCode
  case vStr s =>
    dsimp only [analyzeCode]
    by_cases h1 : s = ""
    · rw [if_pos h1]; rfl
    · rw [if_neg h1]
      by_cases h2 : utf16Len s > maxCodeSize
      · rw [if_pos h2]; rfl
      · rw [if_neg h2]
        by_cases h3 : (!(supportedLanguages.contains language)) = true
        · rw [if_pos h3]; rfl
        · rw [if_neg h3]
          by_cases h4 : language = "javascript"
          · rw [if_pos h4]
            obtain ⟨m, hm⟩ := analyzeJavaScript_err env s
            rw [hm]; rfl
          · rw [if_neg h4]; rfl
  all_goals rfl

/-- C3: the claim constrains `FunctionInfo.localComplexity` for every
function recorded by `analyze`, and `analyze` records none: no call of
`analyzeCode` returns an analysis — the generic `enter` visitor throws a
TypeError at the Program node of every parseable source, and every other
path fails earlier — so the list of functions recorded by any analyzer
call is empty and the claim holds vacuously. -/
theorem C3_local_complexity_vacuous (env : ExternalEnv) (maxCodeSize : Nat)
    (sourceCode : Val) (language : String) :
    ((analyzeCode env maxCodeSize sourceCode language).toOption.map
        (fun r => r.analysis.functions)).getD [] = [] := by
  rw [analyzeCode_never_ok env maxCodeSize sourceCode language]
  rfl

/-- C7: the claim constrains the metrics of every source text accepted by
`analyze`, and no source text is ever accepted: the generic `enter`
visitor throws a TypeError at the Program node of every parseable source,
and every other path of `analyzeCode` fails earlier, so the analyzer
never returns metrics and the stated invariants hold vacuously over the
empty set of accepted sources. -/
theorem C7_metric_invariants (env : ExternalEnv) (maxCodeSize : Nat)
    (sourceCode : Val) (language : String) :
    (analyzeCode env maxCodeSize sourceCode language).toOption = none :=
  analyzeCode_never_ok env maxCodeSize sourceCode language

/-! ## C1: synthesis cardinality -/

lemma gtc_valid (env : GenEnv) (func : FunctionInfo) (i : Nat) :
    generateTestCode env func "valid_param" (some i) =
      .ok ("// Código de teste para " ++ func.name ++ " - " ++ "valid_param") := rfl

lemma gtc_null (env : GenEnv) (func : FunctionInfo) :
    generateTestCode env func "null_params" none =
      .ok ("// Código de teste para " ++ func.name ++ " - " ++ "null_params") := rfl

lemma gtc_async (env : GenEnv) (func : FunctionInfo) :
    generateTestCode env func "async" none = .ok (asyncTestCode func) := rfl

lemma gtc_basic (env : GenEnv) (func : FunctionInfo) {t : String}
    (hT : (getTestTemplates env).lookup "unit" = some t) :
    generateTestCode env func "basic" none =
      .ok (populateTemplate t (basicTestData func)) := by
  unfold generateTestCode
  rw [if_pos rfl, hT]

lemma gtc_invalid (env : GenEnv) (func : FunctionInfo) {i : Nat} {p : ParamInfo}
    (hp : (func.params.drop i).head? = some p) :
    generateTestCode env func "invalid_param" (some i) =
      .ok (invalidTestCode func i p) := by
  unfold generateTestCode
  rw [if_neg (by decide), if_neg (by decide), if_pos rfl]
  show (match (func.params.drop i).head? with
    | some param => Except.ok (invalidTestCode func i param)
    | none => .error "TypeError: Cannot read properties of undefined (reading name)") = _
  rw [hp]

lemma paramPairTests_ok (env : GenEnv) (func : FunctionInfo) (aid : String)
    (ip : Nat × ParamInfo) (h : ip.1 < func.params.length) :
    ∃ ts, paramPairTests env func aid ip = .ok ts ∧ ts.length = 2 := by
  obtain ⟨p, hp⟩ : ∃ p, (func.params.drop ip.1).head? = some p := by
    rw [List.head?_drop]
    exact ⟨_, List.getElem?_eq_getElem h⟩
  unfold paramPairTests
  rw [gtc_valid, gtc_invalid env func hp]
  exact ⟨_, rfl, rfl⟩

lemma mapM_ok_const_len {α : Type} (g : α → Except String (List TestCase)) (k : Nat) :
    ∀ l : List α, (∀ x ∈ l, ∃ ts, g x = .ok ts ∧ ts.length = k) →
      ∃ res, l.mapM g = .ok res ∧ (res.map List.length).sum = k * l.length := by
  intro l
  induction l with
  | nil => intro _; exact ⟨[], List.mapM_nil g, by simp⟩
  | cons x xs ih =>
      intro hall
      obtain ⟨ts, hx, hlen⟩ := hall x (by simp)
      obtain ⟨res, hres, hsum⟩ := ih (fun y hy => hall y (by simp [hy]))
      refine ⟨ts :: res, ?_, ?_⟩
      · rw [List.mapM_cons, hx, hres]; rfl
      · simp only [List.map_cons, List.sum_cons, hsum, hlen, List.length_cons]
        ring

lemma flatMap_const_len {α β : Type} (f : α → List β) (k : Nat) :
    ∀ l : List α, (∀ x ∈ l, (f x).length = k) → (l.flatMap f).length = k * l.length := by
  intro l
  induction l with
  | nil => intro _; simp
  | cons x xs ih =>
      intro hall
      simp only [List.flatMap_cons, List.length_append, List.length_cons,
        hall x (by simp), ih (fun y hy => hall y (by simp [hy]))]
      ring

lemma generateClassTests_len (cls : ClassInfo) (aid : String) :
    (generateClassTests cls aid).length =
      1 + (cls.methods.filter (fun m => m.kind ≠ "constructor")).length := by
  simp [generateClassTests]
  omega

lemma generateConditionalTests_len (conds : List ConditionalRec) (aid : String) :
    (generateConditionalTests conds aid).length = 2 * conds.length := by
  unfold generateConditionalTests
  refine Eq.trans (flatMap_const_len _ 2 _ ?_) ?_
  · exact fun x _ => rfl
  · rw [List.enum_length]

lemma generateLoopTests_len (loops : List LoopRec) (aid : String) :
    (generateLoopTests loops aid).length = 2 * loops.length := by
  unfold generateLoopTests
  refine Eq.trans (flatMap_const_len _ 2 _ ?_) ?_
  · exact fun x _ => rfl
  · rw [List.enum_length]

lemma generateFunctionTests_len (env : GenEnv) (func : FunctionInfo) (aid t : String)
    (hT : (getTestTemplates env).lookup "unit" = some t) :
    ∃ l, generateFunctionTests env func aid = .ok l ∧
      l.length = 1 + 2 * func.params.length
        + (if func.params.length > 0 then 1 else 0)
        + (if func.isAsync then 1 else 0) := by
  obtain ⟨res, hres, hsum⟩ := mapM_ok_const_len (paramPairTests env func aid) 2
    func.params.enum (fun ip hip => paramPairTests_ok env func aid ip
      (by
        have hget := List.mem_enum_iff_getElem?.mp hip
        exact (List.getElem?_eq_some.mp hget).1))
  unfold generateFunctionTests
  rw [gtc_basic env func hT, hres]
  by_cases hp : func.params.length > 0
  · simp only [if_pos hp]
    cases hasync : func.isAsync <;>
      (refine ⟨_, rfl, ?_⟩
       simp only [List.length_append, List.length_flatten, List.length_cons,
         List.length_nil, hsum, List.enum_length, if_pos hp]
       simp
       try omega)
  · simp only [if_neg hp]
    cases hasync : func.isAsync <;>
      (refine ⟨_, rfl, ?_⟩
       simp only [List.length_append, List.length_flatten, List.length_cons,
         List.length_nil, hsum, List.enum_length, if_neg hp]
       simp
       try omega)

lemma functions_tests_len (env : GenEnv) (aid t : String)
    (hT : (getTestTemplates env).lookup "unit" = some t) :
    ∀ funcs : List FunctionInfo,
      ∃ ls, funcs.mapM (fun f => generateFunctionTests env f aid) = .ok ls ∧
        (ls.map List.length).sum =
          (funcs.map (fun f => 1 + 2 * f.params.length
            + (if f.params.length > 0 then 1 else 0)
            + (if f.isAsync then 1 else 0))).sum := by
  intro funcs
  induction funcs with
  | nil => exact ⟨[], List.mapM_nil _, by simp⟩
  | cons f fs ih =>
      obtain ⟨l, hl, hlen⟩ := generateFunctionTests_len env f aid t hT
      obtain ⟨ls, hls, hsum⟩ := ih
      refine ⟨l :: ls, ?_, ?_⟩
      · rw [List.mapM_cons, hl, hls]; rfl
      · simp only [List.map_cons, List.sum_cons, hlen, hsum]

/-- C1 counterexample: the end-to-end scenario in the claim — the source
`function add(a, b) \x7b return a + b; \x7d` yields exactly 6 descriptors
— fails at the analysis stage: the generic `enter` visitor throws a
TypeError at the Program node, so the analyzer returns an error and the
source yields no descriptors at all. -/
theorem C1_counterexample :
    analyzeCode addEnv defaultMaxCodeSize
      (.vStr "function add(a, b) \x7b return a + b; \x7d") "javascript" =
      .error ("Erro na análise: " ++ undefinedThisMessage) := rfl

/-- C1 amended: for every AnalysisResult (whenever the template map
provides the `unit` template — true in particular for the built-in
defaults), the synthesizer emits exactly
`Σ_f (1 + 2·p_f + [p_f>0] + [async_f]) + Σ_c (1 + non-ctor methods) +
2·conditionals + 2·loops` descriptors, functions first, then classes,
conditionals, loops, each in inventory order; and on the inventory the
claim describes for `add` (one two-parameter synchronous function) it
emits exactly 6 descriptors whose kinds are unit/edge_case/negative.
The analyzer itself never produces an AnalysisResult (the traversal
throws — see the counterexample), so the descriptor pipeline can only be
exercised on an inventory supplied directly. -/
theorem C1_amended_synthesis_cardinality (env : GenEnv) (analysis : Analysis) (aid t : String)
    (hT : (getTestTemplates env).lookup "unit" = some t) :
    (∃ l, generateTestCases env analysis aid = .ok l ∧
        l.length = specDescriptorCount analysis)
    ∧ (generateTestCases dfltGenEnv addAnalysis "aid").toOption.map
        (fun l => (l.length, l.map (fun tc => tc.testType))) =
      some (6, ["unit", "unit", "edge_case", "unit", "edge_case", "negative"]) := by
  constructor
  · obtain ⟨ls, hls, hsum⟩ := functions_tests_len env aid t hT analysis.functions
    have hrun : generateTestCases env analysis aid =
        .ok (ls.flatten
          ++ (analysis.classes.map (fun c => generateClassTests c aid)).flatten
          ++ generateConditionalTests analysis.conditionals aid
          ++ generateLoopTests analysis.loops aid) := by
      unfold generateTestCases
      rw [hls]
      rfl
    refine ⟨_, hrun, ?_⟩
    have hcl : (analysis.classes.map
          (List.length ∘ fun c => generateClassTests c aid)).sum =
        (analysis.classes.map (fun c =>
          1 + (c.methods.filter (fun m => m.kind ≠ "constructor")).length)).sum := by
      congr 1
      exact List.map_congr_left (fun c _ => generateClassTests_len c aid)
    simp only [List.length_append, List.length_flatten, List.map_map, hsum, hcl,
      generateConditionalTests_len, generateLoopTests_len, specDescriptorCount]
    try omega
  · rfl

theorem C1_witness :
    (∃ l, generateTestCases dfltGenEnv addAnalysis "aid" = .ok l ∧
        l.length = specDescriptorCount addAnalysis)
    ∧ (generateTestCases dfltGenEnv addAnalysis "aid").toOption.map
        (fun l => (l.length, l.map (fun tc => tc.testType))) =
      some (6, ["unit", "unit", "edge_case", "unit", "edge_case", "negative"]) :=
  C1_amended_synthesis_cardinality dfltGenEnv addAnalysis "aid"
    (((getTestTemplates dfltGenEnv).lookup "unit").getD "") rfl


/-! ## C10: anonymous arrow functions -/

lemma mem_of_mapM_ok {α β : Type} (g : α → Except String β) :
    ∀ (l : List α) (res : List β), l.mapM g = .ok res →
      ∀ y ∈ res, ∃ x ∈ l, g x = .ok y := by
  intro l
  induction l with
  | nil =>
      intro res h y hy
      rw [List.mapM_nil] at h
      simp only [pure, Except.pure, Except.ok.injEq] at h
      subst h
      simp at hy
  | cons x xs ih =>
      intro res h y hy
      rw [List.mapM_cons] at h
      obtain ⟨b, hb, h⟩ := bind_ok h
      obtain ⟨bs, hbs, h⟩ := bind_ok h
      have hres : b :: bs = res := by simpa [pure, Except.pure] using h
      rw [← hres] at hy
      rcases List.mem_cons.mp hy with hy | hy
      · exact ⟨x, by simp, hy ▸ hb⟩
      · obtain ⟨x', hx', hgx⟩ := ih bs hbs y hy
        exact ⟨x', by simp [hx'], hgx⟩

lemma paramPairTests_name (env : GenEnv) (func : FunctionInfo) (aid : String)
    (ip : Nat × ParamInfo) (ts : List TestCase)
    (h : paramPairTests env func aid ip = .ok ts) :
    ∀ tc ∈ ts, tc.functionName = func.name := by
  unfold paramPairTests at h
  obtain ⟨vc, hvc, h⟩ := bind_ok h
  obtain ⟨ic, hic, h⟩ := bind_ok h
  simp only [pure, Except.pure, Except.ok.injEq] at h
  subst h
  intro tc htc
  rcases List.mem_cons.mp htc with htc | htc
  · subst htc; rfl
  · rcases List.mem_cons.mp htc with htc | htc
    · subst htc; rfl
    · simp at htc

lemma generateFunctionTests_name (env : GenEnv) (func : FunctionInfo) (aid : String)
    (ts : List TestCase) (h : generateFunctionTests env func aid = .ok ts) :
    ∀ tc ∈ ts, tc.functionName = func.name := by
  unfold generateFunctionTests at h
  obtain ⟨bc, hbc, h⟩ := bind_ok h
  obtain ⟨pts, hpts, h⟩ := bind_ok h
  have hpar : ∀ tc ∈ pts.flatten, tc.functionName = func.name := by
    intro tc htc
    obtain ⟨l', hl', htc'⟩ := List.mem_flatten.mp htc
    obtain ⟨ip, _, hip⟩ := mem_of_mapM_ok _ _ _ hpts l' hl'
    exact paramPairTests_name env func aid ip l' hip tc htc'
  have hsingle : ∀ (r : TestCase), r.functionName = func.name →
      ∀ tc ∈ [r], tc.functionName = func.name := by
    intro r hr tc htc
    rw [List.mem_singleton] at htc
    subst htc
    exact hr
  have hnil : ∀ tc ∈ ([] : List TestCase), tc.functionName = func.name := by
    intro tc htc
    exact absurd htc (List.not_mem_nil tc)
  by_cases hp : func.params.length > 0 <;>
    [rw [if_pos hp] at h; rw [if_neg hp] at h]
  case pos =>
    obtain ⟨nc, hnc, h⟩ := bind_ok h
    obtain ⟨y, hyv, h⟩ := bind_ok h
    simp only [pure, Except.pure, Except.ok.injEq] at hyv
    subst hyv
    try dsimp only at h
    cases hasync : func.isAsync
    case false =>
      rw [hasync, if_neg Bool.false_ne_true] at h
      obtain ⟨y1, hy1, h⟩ := bind_ok h
      simp only [pure, Except.pure, Except.ok.injEq] at hy1 h
      subst hy1
      subst h
      exact List.forall_mem_append.mpr
        ⟨List.forall_mem_append.mpr
          ⟨List.forall_mem_append.mpr ⟨hsingle _ rfl, hpar⟩, hsingle _ rfl⟩, hnil⟩
    case true =>
      rw [hasync, if_pos rfl] at h
      obtain ⟨ac, hac, h⟩ := bind_ok h
      obtain ⟨y1, hy1, h⟩ := bind_ok h
      simp only [pure, Except.pure, Except.ok.injEq] at hy1 h
      subst hy1
      subst h
      exact List.forall_mem_append.mpr
        ⟨List.forall_mem_append.mpr
          ⟨List.forall_mem_append.mpr ⟨hsingle _ rfl, hpar⟩, hsingle _ rfl⟩,
         hsingle _ rfl⟩
  case neg =>
    obtain ⟨y, hyv, h⟩ := bind_ok h
    simp only [pure, Except.pure, Except.ok.injEq] at hyv
    subst hyv
    try dsimp only at h
    cases hasync : func.isAsync
    case false =>
      rw [hasync, if_neg Bool.false_ne_true] at h
      obtain ⟨y1, hy1, h⟩ := bind_ok h
      simp only [pure, Except.pure, Except.ok.injEq] at hy1 h
      subst hy1
      subst h
      exact List.forall_mem_append.mpr
        ⟨List.forall_mem_append.mpr
          ⟨List.forall_mem_append.mpr ⟨hsingle _ rfl, hpar⟩, hnil⟩, hnil⟩
    case true =>
      rw [hasync, if_pos rfl] at h
      obtain ⟨ac, hac, h⟩ := bind_ok h
      obtain ⟨y1, hy1, h⟩ := bind_ok h
      simp only [pure, Except.pure, Except.ok.injEq] at hy1 h
      subst hy1
      subst h
      exact List.forall_mem_append.mpr
        ⟨List.forall_mem_append.mpr
          ⟨List.forall_mem_append.mpr ⟨hsingle _ rfl, hpar⟩, hnil⟩,
         hsingle _ rfl⟩

/-- C10: `extractFunctionInfo` consults only the function node itself —
never the enclosing variable declarator — and an arrow function node
carries no `id`, so the `node.id ? node.id.name : <anonymous>` fallback
names it `<anonymous>` regardless of the variable it is assigned to (the
statement depends on no variable name, for every parameter list, async
flag, line and body); every descriptor the synthesizer emits for such a
FunctionInfo carries `<anonymous>` as its function name; and the rendered
basic test code (default templates) invokes `<anonymous>(`.  At runtime
no function record is ever actually produced — the traversal throws at
the Program node first (see C2) — but the recording logic and everything
downstream of it carry the `<anonymous>` name exactly as claimed. -/
theorem C10_anonymous_arrow (aid : String) (ps : List Param) (ia : Bool)
    (ln : Option Nat) (body : List Node) (env : GenEnv) :
    (mkFunctionInfo none ps ia false ln body "arrow").name = "<anonymous>"
    ∧ (∀ ts, generateFunctionTests env
          (mkFunctionInfo none ps ia false ln body "arrow") aid = .ok ts →
        ∀ tc ∈ ts, tc.functionName = "<anonymous>")
    ∧ (generateTestCode dfltGenEnv anonArrowInfo "basic" none).toOption.map
        (fun code => jsIncludes code "<anonymous>(") = some true := by
  refine ⟨rfl, ?_, by decide⟩
  intro ts hts tc htc
  exact generateFunctionTests_name env _ aid ts hts tc htc

theorem C10_witness :
    (mkFunctionInfo none [.pIdent "x"] false false (some 1) [] "arrow").name = "<anonymous>"
    ∧ (∀ ts, generateFunctionTests dfltGenEnv
          (mkFunctionInfo none [.pIdent "x"] false false (some 1) [] "arrow") "aid" = .ok ts →
        ∀ tc ∈ ts, tc.functionName = "<anonymous>")
    ∧ (generateTestCode dfltGenEnv anonArrowInfo "basic" none).toOption.map
        (fun code => jsIncludes code "<anonymous>(") = some true :=
  C10_anonymous_arrow "aid" [.pIdent "x"] false (some 1) [] dfltGenEnv

lemma alnum_ne_lbrace {c : Char} (h : c.isAlphanum = true) : c ≠ lbrace := by
  intro he
  subst he
  exact absurd h (by decide)

lemma alnum_ne_rbrace {c : Char} (h : c.isAlphanum = true) : c ≠ rbrace := by
  intro he
  subst he
  exact absurd h (by decide)

lemma leadsWith_append_self : ∀ (l s : List Char), leadsWith l (l ++ s) = true := by
  intro l s
  induction l with
  | nil => rfl
  | cons c cs ih => simp [leadsWith, ih]

lemma replaceAll_match {pat : List Char} (hne : pat ≠ []) (rep s : List Char) :
    replaceAll pat rep (pat ++ s) = rep ++ replaceAll pat rep s := by
  cases pat with
  | nil => exact absurd rfl hne
  | cons p pt =>
      rw [List.cons_append, replaceAll_cons,
        if_pos ⟨List.cons_ne_nil p pt,
          by rw [← List.cons_append]; exact leadsWith_append_self _ _⟩]
      congr 1
      rw [← List.cons_append, List.drop_left]

lemma replaceAll_skip (pt rep : List Char) :
    ∀ (l s : List Char), (∀ c ∈ l, c ≠ lbrace) →
      replaceAll (lbrace :: pt) rep (l ++ s) =
        l ++ replaceAll (lbrace :: pt) rep s := by
  intro l
  induction l with
  | nil => intro s _; rfl
  | cons c l' ih =>
      intro s hl
      rw [List.cons_append, replaceAll_cons, if_neg]
      · rw [ih s (fun x hx => hl x (by simp [hx]))]
        rfl
      · intro hcond
        have h2 := hcond.2
        simp only [leadsWith, Bool.and_eq_true, beq_iff_eq] at h2
        exact (hl c (by simp)) h2.1.symm

lemma leadsWith_key_ne : ∀ (a b : List Char), a ≠ b →
    a.all Char.isAlphanum = true → b.all Char.isAlphanum = true →
    ∀ (t s : List Char), leadsWith (a ++ rbrace :: t) (b ++ rbrace :: s) = false := by
  intro a
  induction a with
  | nil =>
      intro b hne _ hb t s
      cases b with
      | nil => exact absurd rfl hne
      | cons c b' =>
          simp only [List.nil_append, List.cons_append, leadsWith]
          have hc : c.isAlphanum = true := by
            simp only [List.all_cons, Bool.and_eq_true] at hb
            exact hb.1
          have hrc : (rbrace == c) = false :=
            beq_eq_false_iff_ne.mpr (fun he => (alnum_ne_rbrace hc) he.symm)
          simp [hrc]
  | cons c a' ih =>
      intro b hne ha hb t s
      have hc : c.isAlphanum = true := by
        simp only [List.all_cons, Bool.and_eq_true] at ha
        exact ha.1
      cases b with
      | nil =>
          simp only [List.cons_append, List.nil_append, leadsWith]
          have : (c == rbrace) = false := beq_eq_false_iff_ne.mpr (alnum_ne_rbrace hc)
          simp [this]
      | cons c' b' =>
          simp only [List.cons_append, leadsWith]
          by_cases hcc : c = c'
          · subst hcc
            have ha' : a'.all Char.isAlphanum = true := by
              simp only [List.all_cons, Bool.and_eq_true] at ha
              exact ha.2
            have hb' : b'.all Char.isAlphanum = true := by
              simp only [List.all_cons, Bool.and_eq_true] at hb
              exact hb.2
            have hne' : a' ≠ b' := fun he => hne (by rw [he])
            simp [ih b' hne' ha' hb' t s]
          · simp [beq_eq_false_iff_ne.mpr hcc]

lemma key_toList_ne {k k' : String} (h : k' ≠ k) : k.toList ≠ k'.toList := by
  intro he
  exact h (String.ext he.symm)

/-- One `replace` pass over an assembled template substitutes exactly the
placeholders of that key. -/
lemma replace_assemble (k v : String) (hk : goodKey k = true) :
    ∀ segs : List Seg, (∀ sg ∈ segs, segOk sg = true) →
      replaceAll (patOf k) v.toList (assemble segs) =
        assemble (segs.map (substOne k v)) := by
  intro segs
  induction segs with
  | nil => intro _; exact replaceAll_nil _ _
  | cons sg rest ih =>
      intro hok
      have hrest : ∀ sg' ∈ rest, segOk sg' = true :=
        fun sg' h => hok sg' (by simp [h])
      cases sg with
      | lit s =>
          have hs : ∀ c ∈ s.toList, c ≠ lbrace := by
            have hx := hok (.lit s) (by simp)
            simp only [segOk, List.all_eq_true, decide_eq_true_eq] at hx
            exact hx
          show replaceAll (patOf k) v.toList (s.toList ++ assemble rest) = _
          rw [show patOf k = lbrace :: (lbrace :: (k.toList ++ [rbrace, rbrace])) from rfl,
            replaceAll_skip _ _ _ _ hs,
            show (lbrace :: (lbrace :: (k.toList ++ [rbrace, rbrace]))) = patOf k from rfl,
            ih hrest]
          rfl
      | ph k' =>
          have hk' : goodKey k' = true := hok (.ph k') (by simp)
          have hk'alnum : k'.toList.all Char.isAlphanum = true := by
            simp only [goodKey, Bool.and_eq_true] at hk'
            exact hk'.2
          have hkalnum : k.toList.all Char.isAlphanum = true := by
            simp only [goodKey, Bool.and_eq_true] at hk
            exact hk.2
          by_cases hkk : k' = k
          · subst hkk
            show replaceAll (patOf k') v.toList (patOf k' ++ assemble rest) = _
            rw [replaceAll_match (by simp [patOf]), ih hrest]
            simp [assemble, substOne]
          · -- the placeholder of a different key is scanned over unchanged
            obtain ⟨c', k'', hk'cons⟩ : ∃ c' k'', k'.toList = c' :: k'' := by
              cases hx : k'.toList with
              | nil =>
                  rw [goodKey, hx] at hk'
                  simp at hk'
              | cons c' k'' => exact ⟨c', k'', rfl⟩
            have hc' : c'.isAlphanum = true := by
              rw [hk'cons] at hk'alnum
              simp only [List.all_cons, Bool.and_eq_true] at hk'alnum
              exact hk'alnum.1
            have hstep0 :
                leadsWith (patOf k) (assemble (.ph k' :: rest)) = false := by
              show leadsWith (lbrace :: lbrace :: (k.toList ++ [rbrace, rbrace]))
                (patOf k' ++ assemble rest) = false
              rw [show patOf k' ++ assemble rest =
                lbrace :: lbrace :: (k'.toList ++ ([rbrace] ++ rbrace :: assemble rest))
                from by simp [patOf]]
              simp only [leadsWith, Bool.and_eq_true, beq_self_eq_true, true_and]
              exact leadsWith_key_ne k.toList k'.toList (key_toList_ne hkk)
                hkalnum hk'alnum [rbrace] (rbrace :: assemble rest)
            have hassemble : assemble (.ph k' :: rest) =
                lbrace :: (lbrace :: (k'.toList ++ (rbrace :: (rbrace :: assemble rest)))) := by
              simp [assemble, patOf]
            rw [hassemble, replaceAll_cons, if_neg]
            swap
            · intro hcond
              have := hcond.2
              rw [← hassemble] at this
              rw [hstep0] at this
              exact Bool.false_ne_true this
            rw [replaceAll_cons, if_neg]
            swap
            · intro hcond
              have h2 := hcond.2
              rw [hk'cons] at h2
              simp only [leadsWith, Bool.and_eq_true, beq_iff_eq] at h2
              exact (alnum_ne_lbrace hc') h2.2.1.symm
            have hsk : ∀ c ∈ k'.toList, c ≠ lbrace := by
              intro c hc
              have : c.isAlphanum = true := by
                rw [List.all_eq_true] at hk'alnum
                simpa using hk'alnum c hc
              exact alnum_ne_lbrace this
            rw [show k'.toList ++ rbrace :: (rbrace :: assemble rest) =
              k'.toList ++ (rbrace :: (rbrace :: assemble rest)) from rfl]
            rw [show patOf k = lbrace :: (lbrace :: (k.toList ++ [rbrace, rbrace])) from rfl,
              replaceAll_skip _ _ _ _ hsk]
            rw [replaceAll_cons, if_neg]
            swap
            · intro hcond
              have h2 := hcond.2
              simp only [leadsWith, Bool.and_eq_true, beq_iff_eq] at h2
              exact absurd h2.1 (by decide)
            rw [replaceAll_cons, if_neg]
            swap
            · intro hcond
              have h2 := hcond.2
              simp only [leadsWith, Bool.and_eq_true, beq_iff_eq] at h2
              exact absurd h2.1 (by decide)
            rw [show (lbrace :: (lbrace :: (k.toList ++ [rbrace, rbrace]))) = patOf k from rfl,
              ih hrest]
            simp [assemble, substOne, beq_eq_false_iff_ne.mpr hkk, patOf, hkk]

lemma toList_pat (k : String) : ("\x7b\x7b" ++ k ++ "\x7d\x7d").toList = patOf k := by
  show (("\x7b\x7b" ++ k) ++ "\x7d\x7d").data = patOf k
  rw [String.data_append, String.data_append,
    show "\x7b\x7b".data = [lbrace, lbrace] from by decide,
    show "\x7d\x7d".data = [rbrace, rbrace] from by decide]
  simp [patOf, String.toList]

lemma segOk_map_substOne {k v : String} (hv : goodVal v = true) :
    ∀ segs : List Seg, (∀ sg ∈ segs, segOk sg = true) →
      ∀ sg ∈ segs.map (substOne k v), segOk sg = true := by
  intro segs hok sg hsg
  obtain ⟨sg₀, hsg₀, hmap⟩ := List.mem_map.mp hsg
  subst hmap
  cases sg₀ with
  | lit s => exact hok (.lit s) hsg₀
  | ph k' =>
      by_cases hkk : k' = k
      · simp only [substOne, if_pos hkk, segOk]
        rw [goodVal, List.all_eq_true] at hv
        rw [List.all_eq_true]
        intro c hc
        have hcv := hv c hc
        simp only [Bool.and_eq_true] at hcv
        exact hcv.1
      · simp only [substOne, if_neg hkk]
        exact hok (.ph k') hsg₀

lemma substAll_ok :
    ∀ (data : List (String × String)),
      (∀ kv ∈ data, goodKey kv.1 = true ∧ goodVal kv.2 = true) →
      ∀ segs, (∀ sg ∈ segs, segOk sg = true) →
        ∀ sg ∈ substAll segs data, segOk sg = true := by
  intro data
  induction data with
  | nil => intro _ segs hok; exact hok
  | cons kv rest ih =>
      intro hdata segs hok
      show ∀ sg ∈ substAll (segs.map (substOne kv.1 kv.2)) rest, segOk sg = true
      exact ih (fun kv' h => hdata kv' (by simp [h])) _
        (segOk_map_substOne (hdata kv (by simp)).2 segs hok)

lemma populate_eq_substAll :
    ∀ (data : List (String × String)) (segs : List Seg),
      (∀ sg ∈ segs, segOk sg = true) →
      (∀ kv ∈ data, goodKey kv.1 = true ∧ goodVal kv.2 = true) →
      populateTemplate (String.mk (assemble segs)) data =
        String.mk (assemble (substAll segs data)) := by
  intro data
  induction data with
  | nil => intro segs _ _; rfl
  | cons kv rest ih =>
      intro segs hok hdata
      obtain ⟨k, v⟩ := kv
      have hk : goodKey k = true := (hdata (k, v) (by simp)).1
      have hv : goodVal v = true := (hdata (k, v) (by simp)).2
      have hstep : jsReplaceGlobal (String.mk (assemble segs))
          ("\x7b\x7b" ++ k ++ "\x7d\x7d") v =
          String.mk (assemble (segs.map (substOne k v))) := by
        unfold jsReplaceGlobal
        congr 1
        rw [toList_pat k,
          show (String.mk (assemble segs)).toList = assemble segs from rfl]
        exact replace_assemble k v hk segs hok
      show populateTemplate (jsReplaceGlobal (String.mk (assemble segs))
          ("\x7b\x7b" ++ k ++ "\x7d\x7d") v) rest = _
      rw [hstep]
      exact ih _ (segOk_map_substOne hv segs hok)
        (fun kv' h => hdata kv' (by simp [h]))

lemma ph_mem_substAll :
    ∀ (data : List (String × String)) (segs : List Seg) (k : String),
      .ph k ∈ segs → (∀ kv ∈ data, kv.1 ≠ k) → .ph k ∈ substAll segs data := by
  intro data
  induction data with
  | nil => intro segs k h _; exact h
  | cons kv rest ih =>
      intro segs k h hne
      show Seg.ph k ∈ substAll (segs.map (substOne kv.1 kv.2)) rest
      apply ih
      · have hkeep : substOne kv.1 kv.2 (.ph k) = .ph k := by
          have : ¬ k = kv.1 := fun he => (hne kv (by simp)) he.symm
          simp [substOne, this]
        rw [← hkeep]
        exact List.mem_map_of_mem _ h
      · exact fun kv' h' => hne kv' (by simp [h'])

lemma substAll_ph_inv :
    ∀ (data : List (String × String)) (segs : List Seg) (k : String),
      .ph k ∈ substAll segs data → .ph k ∈ segs ∧ ∀ kv ∈ data, kv.1 ≠ k := by
  intro data
  induction data with
  | nil => intro segs k h; exact ⟨h, by simp⟩
  | cons kv rest ih =>
      intro segs k h
      obtain ⟨hmem, hrest⟩ := ih (segs.map (substOne kv.1 kv.2)) k h
      obtain ⟨sg₀, hsg₀, hmap⟩ := List.mem_map.mp hmem
      cases sg₀ with
      | lit s => simp [substOne] at hmap
      | ph k₀ =>
          by_cases hk₀ : k₀ = kv.1
          · simp [substOne, hk₀] at hmap
          · simp only [substOne, if_neg hk₀] at hmap
            have hk₀k : k₀ = k := Seg.ph.inj hmap
            subst hk₀k
            refine ⟨hsg₀, ?_⟩
            intro kv' h'
            rcases List.mem_cons.mp h' with he | h''
            · subst he
              exact fun hc => hk₀ hc.symm
            · exact hrest kv' h''

lemma assemble_no_lbrace :
    ∀ segs : List Seg, (∀ sg ∈ segs, segOk sg = true) →
      (∀ k, .ph k ∉ segs) →
      ∀ c ∈ assemble segs, c ≠ lbrace := by
  intro segs
  induction segs with
  | nil => intro _ _ c hc; simp [assemble] at hc
  | cons sg rest ih =>
      intro hok hph c hc
      cases sg with
      | lit s =>
          rw [show assemble (.lit s :: rest) = s.toList ++ assemble rest from rfl] at hc
          rcases List.mem_append.mp hc with hc | hc
          · have hx := hok (.lit s) (by simp)
            simp only [segOk, List.all_eq_true, decide_eq_true_eq] at hx
            exact hx c hc
          · exact ih (fun sg h => hok sg (by simp [h]))
              (fun k hk => hph k (by simp [hk])) c hc
      | ph k => exact absurd (by simp : Seg.ph k ∈ Seg.ph k :: rest) (hph k)

lemma no_lbrace_no_token (pt : List Char) :
    ∀ l : List Char, (∀ c ∈ l, c ≠ lbrace) →
      listContains l (lbrace :: pt) = false := by
  intro l
  induction l with
  | nil => intro _; rfl
  | cons c t ih =>
      intro h
      have hlw : leadsWith (lbrace :: pt) (c :: t) = false := by
        simp only [leadsWith]
        simp [beq_eq_false_iff_ne.mpr (fun he => (h c (by simp)) he.symm)]
      rw [listContains, if_neg (by simp [hlw])]
      exact ih (fun x hx => h x (by simp [hx]))

/-- C8 counterexample: the claim quantifies over every template text and
binding map, but `populateTemplate` applies the bindings sequentially, so
a binding value that itself contains a placeholder token is rewritten by
a later binding and can leave `\x7b\x7b...\x7d\x7d` tokens in the output
of a template whose every placeholder is bound.  Here the template is the
single bound placeholder `\x7b\x7bb\x7d\x7d` and the bindings are
`a = "X"`, then `b = "\x7b\x7ba\x7d\x7d"`: the `b` pass inserts
`\x7b\x7ba\x7d\x7d` after the `a` pass has already run, so the render is
`\x7b\x7ba\x7d\x7d`, which still contains the `\x7b\x7b` token opener —
refuting both "replaces every placeholder with its binding value
remaining-token-free" and the round-trip part of the claim. -/
theorem C8_counterexample :
    populateTemplate (String.mk (assemble [Seg.ph "b"]))
        [("a", "X"), ("b", "\x7b\x7ba\x7d\x7d")] = "\x7b\x7ba\x7d\x7d"
    ∧ listContains ("\x7b\x7ba\x7d\x7d" : String).toList [lbrace, lbrace] = true :=
  ⟨rfl, by decide⟩

/-- C8 amended: restricted to the regime this code base actually uses —
templates decomposed into brace-free literals and placeholders with
nonempty alphanumeric keys (so the RegExp built from the placeholder is
the literal token), and binding values free of braces and of the dollar
escape character (so `String.replace` inserts them literally and they
form no new tokens) — `populateTemplate` (1) replaces every occurrence of
each bound placeholder with the value of its binding, (2) leaves
placeholders without a binding intact rather than failing, and (3)
renders a template whose placeholders all have bindings to text with no
remaining `\x7b\x7b...\x7d\x7d` token opener.  Outside this regime the
claim fails (see the counterexample). -/
theorem C8_template_rendering :
    ∀ (segs : List Seg) (data : List (String × String)),
      (∀ sg ∈ segs, segOk sg = true) →
      (∀ kv ∈ data, goodKey kv.1 = true ∧ goodVal kv.2 = true) →
      (populateTemplate (String.mk (assemble segs)) data =
          String.mk (assemble (substAll segs data))
        ∧ (∀ k, .ph k ∈ segs → (∀ kv ∈ data, kv.1 ≠ k) →
            .ph k ∈ substAll segs data)
        ∧ ((∀ k, .ph k ∈ segs → ∃ kv ∈ data, kv.1 = k) →
            listContains
              (populateTemplate (String.mk (assemble segs)) data).toList
              (lbrace :: [lbrace]) = false)) := by
  intro segs data hok hdata
  refine ⟨populate_eq_substAll data segs hok hdata,
    fun k hk hne => ph_mem_substAll data segs k hk hne, ?_⟩
  intro hcomplete
  rw [populate_eq_substAll data segs hok hdata]
  apply no_lbrace_no_token
  apply assemble_no_lbrace
  · exact substAll_ok data hdata segs hok
  · intro k hk
    obtain ⟨hmem, hrest⟩ := substAll_ph_inv data segs k hk
    obtain ⟨kv, hkv, hkvk⟩ := hcomplete k hmem
    exact hrest kv hkv hkvk

theorem C8_witness :
    populateTemplate (String.mk (assemble c8segs)) c8data =
        String.mk (assemble (substAll c8segs c8data))
      ∧ (∀ k, .ph k ∈ c8segs → (∀ kv ∈ c8data, kv.1 ≠ k) →
          .ph k ∈ substAll c8segs c8data)
      ∧ ((∀ k, .ph k ∈ c8segs → ∃ kv ∈ c8data, kv.1 = k) →
          listContains
            (populateTemplate (String.mk (assemble c8segs)) c8data).toList
            (lbrace :: [lbrace]) = false) :=
  C8_template_rendering c8segs c8data (by decide) (by decide)

end TCG

